import Mathlib

/-!
Verification development for the `@aikotools/datacompare` recursive
comparison engine.  The TypeScript sources are shallowly embedded:

* JSON-like payloads become the inductive type `Value` (numbers are
  modelled as rationals, `undefined` is an explicit constructor);
* the directive parser (`CompareParser.ts`) is translated to functions
  over `List Char`;
* the recursive comparer (`RecursiveComparer.ts`) becomes a
  fuel-indexed state-passing function `compareInternal`, where the fuel
  bounds the recursion depth across values (the wrappers instantiate it
  with `sizeV expected`, which always suffices because every recursive
  call descends into a structurally smaller expected value);
* the engine facade (`CompareEngine.ts`) and the default directive set
  (`createDefaultEngine`/`compareData` from the package index) are
  translated directly.

JavaScript builtins that the sources rely on (`parseFloat`, `RegExp`,
`String.prototype.trim/split`, luxon's `DateTime`) are not repository
code; they are modelled here by executable Lean functions whose doc
comments state the modelled behaviour.
-/

attribute [local semireducible] Rat.add Rat.mul Rat.inv Rat.sub

namespace DataCompare

/-- JSON-ish value tree handled by the comparer: `null`, `undefined`,
booleans, numbers (modelled as rationals), strings, arrays and objects
(ordered key/value lists; JavaScript objects have unique keys, which is
assumed wherever it matters). -/
inductive Value : Type where
  | vNull : Value
  | vUndefined : Value
  | vBool : Bool → Value
  | vNum : ℚ → Value
  | vStr : String → Value
  | vArr : List Value → Value
  | vObj : List (String × Value) → Value
deriving Repr

/-- Model of the JavaScript `typeof` operator on `Value`
(`typeof null` is `"object"`, arrays are `"object"`). -/
def typeofJS : Value → String
  | .vNull => "object"
  | .vUndefined => "undefined"
  | .vBool _ => "boolean"
  | .vNum _ => "number"
  | .vStr _ => "string"
  | .vArr _ => "object"
  | .vObj _ => "object"

/-- Model of JavaScript strict equality `===` as used by the comparer.
It is only consulted with scalar (or null/undefined) expected values;
distinct objects/arrays are never `===` there, so structured values
compare unequal. -/
def jsStrictEq : Value → Value → Bool
  | .vNull, .vNull => true
  | .vUndefined, .vUndefined => true
  | .vBool a, .vBool b => a == b
  | .vNum a, .vNum b => a == b
  | .vStr a, .vStr b => a == b
  | _, _ => false

/-- Model of JavaScript truthiness for context fields
(`if (context.startTimeTest) ...`). -/
def jsTruthy : Value → Bool
  | .vNull => false
  | .vUndefined => false
  | .vBool b => b
  | .vNum q => q != 0
  | .vStr s => s != ""
  | .vArr _ => true
  | .vObj _ => true

/-! ### Keyword literals (`types.ts`, `COMPARE_KEYWORDS`)
Braces are written with `\x7b`/`\x7d` escapes. -/

/-- The `\x7b\x7bcompare:exact\x7d\x7d` keyword literal. -/
def exactKeyword : String := "\x7b\x7bcompare:exact\x7d\x7d"

/-- The `\x7b\x7bcompare:ignore\x7d\x7d` keyword literal. -/
def ignoreKeyword : String := "\x7b\x7bcompare:ignore\x7d\x7d"

/-- The `\x7b\x7bcompare:ignoreRest\x7d\x7d` keyword literal. -/
def ignoreRestKeyword : String := "\x7b\x7bcompare:ignoreRest\x7d\x7d"

/-- The `\x7b\x7bcompare:ignoreOrder\x7d\x7d` keyword literal. -/
def ignoreOrderKeyword : String := "\x7b\x7bcompare:ignoreOrder\x7d\x7d"

/-- Whether a value is (string-)equal to the given keyword literal, as in
`item !== '...'` membership tests on expected arrays. -/
def isKw (kw : String) : Value → Bool
  | .vStr s => s == kw
  | _ => false

mutual

/-- Structural size of a value (used as recursion fuel for the comparer:
every child value has a strictly smaller size). -/
def sizeV : Value → Nat
  | .vNull => 1
  | .vUndefined => 1
  | .vBool _ => 1
  | .vNum _ => 1
  | .vStr _ => 1
  | .vArr xs => 1 + sizeVL xs
  | .vObj fs => 1 + sizeVF fs

/-- Size of a value list. -/
def sizeVL : List Value → Nat
  | [] => 0
  | v :: vs => 1 + sizeV v + sizeVL vs

/-- Size of an object field list. -/
def sizeVF : List (String × Value) → Nat
  | [] => 0
  | (_, v) :: fs => 1 + sizeV v + sizeVF fs

end

/-! ### Character-list string helpers (models of JS string builtins) -/

/-- Model of the JavaScript whitespace class used by `String.prototype.trim`. -/
def jsIsWS (c : Char) : Bool := c.isWhitespace

/-- Model of `String.prototype.trim` on character lists. -/
def trimL (cs : List Char) : List Char :=
  ((cs.dropWhile jsIsWS).reverse.dropWhile jsIsWS).reverse

/-- `startsWithL cs ps` holds when `ps` is an initial run of `cs`
(model of `String.prototype.startsWith`). -/
def startsWithL : List Char → List Char → Bool
  | _, [] => true
  | [], _ :: _ => false
  | c :: cs, p :: ps => c == p && startsWithL cs ps

/-- Model of `String.prototype.endsWith`. -/
def endsWithL (cs ps : List Char) : Bool :=
  startsWithL cs.reverse ps.reverse

/-- Substring test (model of `String.prototype.includes`). -/
def containsSubL : List Char → List Char → Bool
  | [], ps => ps.isEmpty
  | c :: cs, ps => startsWithL (c :: cs) ps || containsSubL cs ps

/-- Model of JavaScript `split` with a single-character separator:
`"a|b".split('|') = ["a","b"]`, `"".split('|') = [""]`. -/
def splitOnCharL (sep : Char) : List Char → List (List Char)
  | [] => [[]]
  | c :: cs =>
    match splitOnCharL sep cs with
    | [] => [[c]]
    | r :: rs => if c == sep then [] :: r :: rs else (c :: r) :: rs

/-- JavaScript line-terminator characters, which `.` in a regular
expression never matches (relevant to `isDirective`'s `.+?`). -/
def isLineTerm (c : Char) : Bool :=
  c == '\n' || c == '\r' || c == Char.ofNat 0x2028 || c == Char.ofNat 0x2029

/-! ### Directive parser (`CompareParser.ts`) -/

/-- A parsed transform clause (`name:param1:param2`). -/
structure ParsedTransform where
  name : String
  params : List String
deriving Repr, DecidableEq

/-- A parsed directive (`CompareParser.parse` result). -/
structure ParsedDirective where
  original : String
  action : String
  args : List String
  transforms : List ParsedTransform
deriving Repr, DecidableEq

/-- The ten wrapper characters `\x7b\x7bcompare:`. -/
def wrapperOpen : List Char := "\x7b\x7bcompare:".data

/-- The closing wrapper `\x7d\x7d`. -/
def wrapperClose : List Char := "\x7d\x7d".data

/-- `CompareParser.isDirective` on character lists.  The source tests the
trimmed string against `/^\x7b\x7bcompare:.+?\x7d\x7d$/`: an exact match
requires the `\x7b\x7bcompare:` opener, at least one character matched by
`.` (hence no line terminators) and the final two characters `\x7d\x7d`;
interior braces are permitted. -/
def isDirectiveL (cs : List Char) : Bool :=
  let t := trimL cs
  startsWithL t wrapperOpen && endsWithL t wrapperClose &&
    decide (13 ≤ t.length) &&
    ((t.drop 10).take (t.length - 12)).all (fun c => !isLineTerm c)

/-- `CompareParser.isDirective` on strings. -/
def isDirective (s : String) : Bool := isDirectiveL s.data

/-- The `slice(10, -2)` of `CompareParser.parse`, stripping
`\x7b\x7bcompare:` and the trailing `\x7d\x7d` from the (untrimmed)
directive string. -/
def innerOfL (cs : List Char) : List Char :=
  (cs.drop 10).take (cs.length - 12)

/-- Loop body of `CompareParser.splitByUnescapedColon`: `endsColon`
records whether the whole input string ends with `':'` (the source
consults `str.endsWith(':')` for the final push). -/
def splitColonAux (endsColon : Bool) : List Char → List Char → List (List Char)
  | [], cur => if cur.length > 0 || endsColon then [cur] else []
  | '\\' :: ':' :: rest, cur => splitColonAux endsColon rest (cur ++ [':'])
  | ':' :: rest, cur => cur :: splitColonAux endsColon rest []
  | c :: rest, cur => splitColonAux endsColon rest (cur ++ [c])

/-- `CompareParser.splitByUnescapedColon`: split on `':'` except when the
colon is preceded by a backslash (`\:` becomes a literal colon); any
other backslash is kept verbatim. -/
def splitByUnescapedColonL (cs : List Char) : List (List Char) :=
  splitColonAux (endsWithL cs [':']) cs []

/-- `CompareParser.parseTransform`. -/
def parseTransformL (cs : List Char) : ParsedTransform :=
  match (splitByUnescapedColonL cs).map String.mk with
  | [] => { name := "", params := [] }
  | n :: ps => { name := n, params := ps }

/-- `CompareParser.parse`.  Throws (here: `Except.error`) when the input
is not a directive or the main clause has no segments; otherwise strips
the wrapper, splits on every `'|'` (the source uses a plain
`inner.split('|')`), takes the first part as the main clause and parses
the rest as transforms. -/
def parseE (directive : String) : Except String ParsedDirective :=
  if !isDirective directive then
    .error ("Invalid directive format: " ++ directive)
  else
    let inner := innerOfL directive.data
    match splitOnCharL '|' inner with
    | [] => .error ("Invalid directive format: " ++ directive)
    | mainPart :: transformParts =>
      match (splitByUnescapedColonL mainPart).map String.mk with
      | [] => .error ("Invalid directive: missing action in " ++ directive)
      | action :: args =>
        .ok { original := directive, action := action, args := args,
              transforms := transformParts.map parseTransformL }

/-- `CompareParser.isKeyword`. -/
def isKeyword (s : String) : Bool :=
  s == exactKeyword || s == ignoreKeyword ||
  s == ignoreRestKeyword || s == ignoreOrderKeyword

/-! ### Number parsing (model of the JavaScript `parseFloat` builtin) -/

/-- Accumulate a leading run of decimal digits, returning the value read,
the number of digits consumed and the rest of the input. -/
def takeDigits (acc : Nat) (n : Nat) : List Char → Nat × Nat × List Char
  | [] => (acc, n, [])
  | c :: cs =>
    if c.isDigit then takeDigits (acc * 10 + (c.toNat - 48)) (n + 1) cs
    else (acc, n, c :: cs)

/-- Model of the JavaScript `parseFloat` builtin restricted to the value
model (no `Infinity`/`NaN` results; `none` stands for `NaN`): skip
leading whitespace, read an optional sign, a decimal mantissa
(`digits[.digits]` with at least one digit) and an optional exponent;
trailing garbage is ignored exactly as `parseFloat` does. -/
def jsParseFloat (s : String) : Option ℚ :=
  let cs := s.data.dropWhile jsIsWS
  let signAndRest : ℚ × List Char :=
    match cs with
    | '+' :: r => (1, r)
    | '-' :: r => (-1, r)
    | r => (1, r)
  let (ip, nInt, rest1) := takeDigits 0 0 signAndRest.2
  let fracAndRest : Nat × Nat × List Char :=
    match rest1 with
    | '.' :: r => takeDigits 0 0 r
    | r => (0, 0, r)
  let (fp, nFrac, rest2) := fracAndRest
  if nInt = 0 ∧ nFrac = 0 then none
  else
    let mant : ℚ := (ip : ℚ) + (fp : ℚ) / ((10 : ℚ) ^ nFrac)
    let value : ℚ :=
      match rest2 with
      | e :: r =>
        if e == 'e' || e == 'E' then
          let expSign : Int × List Char :=
            match r with
            | '+' :: t => (1, t)
            | '-' :: t => (-1, t)
            | t => (1, t)
          let (ev, ne, _) := takeDigits 0 0 expSign.2
          if ne = 0 then mant else mant * (10 : ℚ) ^ (expSign.1 * (ev : Int))
        else mant
      | [] => mant
    some (signAndRest.1 * value)

/-! ### `NumberUtils.ts` -/

/-- A parsed inclusive numeric range. -/
structure NumberRange where
  min : ℚ
  max : ℚ
deriving Repr, DecidableEq

/-- A parsed numeric tolerance specification. -/
structure NumberTolerance where
  value : ℚ
  tolerance : ℚ
  isPercentage : Bool
deriving Repr, DecidableEq

/-- `NumberUtils.parseNumberRange`: `parseFloat` both bounds, failing when
either is `NaN` or when `min > max`. -/
def parseNumberRange (minStr maxStr : String) : Except String NumberRange :=
  match jsParseFloat minStr, jsParseFloat maxStr with
  | some mn, some mx =>
    if mn > mx then .error "Invalid range: min cannot be greater than max"
    else .ok { min := mn, max := mx }
  | _, _ => .error ("Invalid number range: " ++ minStr ++ ":" ++ maxStr)

/-- `NumberUtils.parseNumberTolerance`: strip a trailing `%` (percentage
flag), strip a leading `±`, `parseFloat` both parts, rejecting `NaN`
values and negative tolerances. -/
def parseNumberTolerance (valueStr toleranceStr : String) :
    Except String NumberTolerance :=
  match jsParseFloat valueStr with
  | none => .error ("Invalid value: " ++ valueStr)
  | some v =>
    let isPct := endsWithL toleranceStr.data ['%']
    let tolCs := if isPct then toleranceStr.data.dropLast else toleranceStr.data
    let cleanCs := if startsWithL tolCs ['±'] then tolCs.drop 1 else tolCs
    match jsParseFloat (String.mk cleanCs) with
    | none => .error ("Invalid tolerance: " ++ toleranceStr)
    | some t =>
      if t < 0 then .error ("Invalid tolerance: " ++ toleranceStr)
      else .ok { value := v, tolerance := t, isPercentage := isPct }

/-- `NumberUtils.isNumberInRange`: inclusive range test plus the distance
from the violated bound (0 inside the range). -/
def isNumberInRange (actual : ℚ) (range : NumberRange) : Bool × ℚ :=
  let inRange := range.min ≤ actual ∧ actual ≤ range.max
  let distance : ℚ :=
    if actual < range.min then range.min - actual
    else if actual > range.max then actual - range.max
    else 0
  (decide inRange, distance)

/-- `NumberUtils.isNumberWithinTolerance`: the allowed difference is
`|value| * tolerance / 100` for a percentage and `tolerance` itself
otherwise; the check is `|actual - value| ≤ allowed`. -/
def isNumberWithinTolerance (actual : ℚ) (spec : NumberTolerance) :
    Bool × ℚ × ℚ :=
  let allowedDifference : ℚ :=
    if spec.isPercentage then |spec.value| * spec.tolerance / 100
    else spec.tolerance
  let difference := |actual - spec.value|
  (decide (difference ≤ allowedDifference), difference, allowedDifference)

/-- `NumberUtils.formatRange` (display only; numbers are rendered by a
simplified stand-in for JavaScript number formatting). -/
def formatRange (range : NumberRange) : String :=
  "[" ++ toString range.min ++ ", " ++ toString range.max ++ "]"

/-- `NumberUtils.formatTolerance` (display only). -/
def formatTolerance (spec : NumberTolerance) : String :=
  if spec.isPercentage then
    toString spec.value ++ " ±" ++ toString spec.tolerance ++ "%"
  else
    toString spec.value ++ " ±" ++ toString spec.tolerance

/-! ### Context, match results, directive interface -/

/-- `CompareContext`: the two recognised time fields plus `now`, an
explicit model of the wall clock consulted when neither is set
(`DateTime.utc()` in `TimeUtils.getBaseTime`); extra context keys are
irrelevant to the embedded core. -/
structure Context where
  startTimeTest : Option Value := none
  startTimeScript : Option Value := none
  now : ℚ := 0
deriving Repr

/-- `MatchResult` returned by directive matchers. -/
structure MatchResult where
  success : Bool
  error : Option String := none
  details : Option String := none
  matchedValue : Option Value := none
deriving Repr

/-- A directive implementation (`CompareDirective` interface): a name and
a matcher factory; construction failures (TypeScript `throw`) are
`Except.error`.  The returned matcher takes the actual value and the
ambient compare context (the only part of `MatchContext` the built-in
directives read). -/
structure DirectiveImpl where
  name : String
  createMatcher : ParsedDirective → Except String (Value → Context → MatchResult)

/-! ### A small regular-expression model (the JavaScript `RegExp` builtin)

`RegexDirective` compiles its pattern with `new RegExp(pattern)` and
matches with `regex.test(actual)`.  `RegExp` is a JavaScript builtin, so
it is modelled here by an executable engine for the fragment the
repository exercises: literal characters, escaped literals, character
classes `[...]` of chars and ranges, and counted repetition
`\x7bn\x7d`.  Patterns outside this fragment are rejected at
construction time. -/

/-- A single-character regex atom: a literal or a character class
(list of inclusive ranges). -/
inductive RAtom : Type where
  | lit : Char → RAtom
  | cls : List (Char × Char) → RAtom
deriving Repr, DecidableEq

/-- Parse the body of a character class up to `]`, returning the ranges
and the remaining input. -/
def parseClassBody : List Char → Option (List (Char × Char) × List Char)
  | [] => none
  | ']' :: rest => some ([], rest)
  | a :: '-' :: b :: rest =>
    if b == ']' then
      (parseClassBody ('-' :: b :: rest)).map (fun (rs, r) => ((a, a) :: rs, r))
    else
      (parseClassBody rest).map (fun (rs, r) => ((a, b) :: rs, r))
  | a :: rest =>
    (parseClassBody rest).map (fun (rs, r) => ((a, a) :: rs, r))

/-- Parse a counted quantifier `\x7bn\x7d` if present; returns the count
(default 1) and the rest. -/
def parseCount : List Char → Nat × List Char
  | '\x7b' :: rest =>
    match takeDigits 0 0 rest with
    | (v, n, '\x7d' :: r) => if n = 0 then (1, '\x7b' :: rest) else (v, r)
    | _ => (1, '\x7b' :: rest)
  | cs => (1, cs)

/-- Compile a pattern into a flat atom sequence (counted repetitions are
expanded); `none` for patterns outside the supported fragment.  The
fuel is the pattern length (every atom consumes at least one input
character, so it always suffices). -/
def compileRegexAux : Nat → List Char → Option (List RAtom)
  | _, [] => some []
  | 0, _ :: _ => none
  | fuel + 1, '[' :: rest =>
    match parseClassBody rest with
    | none => none
    | some (ranges, r1) =>
      let (n, r2) := parseCount r1
      (compileRegexAux fuel r2).map (fun as => List.replicate n (RAtom.cls ranges) ++ as)
  | fuel + 1, '\\' :: c :: rest =>
    let (n, r2) := parseCount rest
    (compileRegexAux fuel r2).map (fun as => List.replicate n (RAtom.lit c) ++ as)
  | fuel + 1, c :: rest =>
    if c == ']' || c == '\\' || c == '(' || c == ')' || c == '*' ||
       c == '+' || c == '?' || c == '^' || c == '$' || c == '.' || c == '|' then
      none
    else
      let (n, r2) := parseCount rest
      (compileRegexAux fuel r2).map (fun as => List.replicate n (RAtom.lit c) ++ as)

/-- Compile entry point (see `compileRegexAux`). -/
def compileRegex (cs : List Char) : Option (List RAtom) :=
  compileRegexAux cs.length cs

/-- Does one atom match one character? -/
def matchAtom : RAtom → Char → Bool
  | .lit l, c => c == l
  | .cls ranges, c => ranges.any (fun (lo, hi) => lo ≤ c ∧ c ≤ hi)

/-- Match the whole atom sequence against a prefix of the input. -/
def matchSeq : List RAtom → List Char → Bool
  | [], _ => true
  | _ :: _, [] => false
  | a :: as, c :: cs => matchAtom a c && matchSeq as cs

/-- Unanchored search (model of `RegExp.prototype.test`). -/
def regexSearch (atoms : List RAtom) : List Char → Bool
  | [] => matchSeq atoms []
  | c :: cs => matchSeq atoms (c :: cs) || regexSearch atoms cs

/-! ### The built-in directive implementations -/

/-- Shared failure result for non-string actuals in the string-pattern
directives. -/
def notStringResult (actual : Value) : MatchResult :=
  { success := false, error := some ("Expected string, got " ++ typeofJS actual) }

/-- Matcher produced by `StartsWithDirective.createMatcher`. -/
def startsWithMatcher (pat : String) (actual : Value) (_ : Context) : MatchResult :=
  match actual with
  | .vStr s =>
    if startsWithL s.data pat.data then
      { success := true, details := some ("String starts with '" ++ pat ++ "'") }
    else
      { success := false,
        error := some ("Expected string to start with '" ++ pat ++ "', but got '" ++ s ++ "'") }
  | v => notStringResult v

/-- `StartsWithDirective`: requires at least one argument; the pattern is
the arguments rejoined with `:`. -/
def startsWithImpl : DirectiveImpl where
  name := "startsWith"
  createMatcher parsed :=
    if parsed.args.isEmpty then
      .error "startsWith directive requires at least one argument"
    else
      .ok (startsWithMatcher (String.intercalate ":" parsed.args))

/-- Matcher produced by `EndsWithDirective.createMatcher`. -/
def endsWithMatcher (pat : String) (actual : Value) (_ : Context) : MatchResult :=
  match actual with
  | .vStr s =>
    if endsWithL s.data pat.data then
      { success := true, details := some ("String ends with '" ++ pat ++ "'") }
    else
      { success := false,
        error := some ("Expected string to end with '" ++ pat ++ "', but got '" ++ s ++ "'") }
  | v => notStringResult v

/-- `EndsWithDirective`. -/
def endsWithImpl : DirectiveImpl where
  name := "endsWith"
  createMatcher parsed :=
    if parsed.args.isEmpty then
      .error "endsWith directive requires at least one argument"
    else
      .ok (endsWithMatcher (String.intercalate ":" parsed.args))

/-- Matcher produced by `ContainsDirective.createMatcher`. -/
def containsMatcher (sub : String) (actual : Value) (_ : Context) : MatchResult :=
  match actual with
  | .vStr s =>
    if containsSubL s.data sub.data then
      { success := true, details := some ("String contains '" ++ sub ++ "'") }
    else
      { success := false,
        error := some ("Expected string to contain '" ++ sub ++ "', but got '" ++ s ++ "'") }
  | v => notStringResult v

/-- `ContainsDirective`. -/
def containsImpl : DirectiveImpl where
  name := "contains"
  createMatcher parsed :=
    if parsed.args.isEmpty then
      .error "contains directive requires at least one argument"
    else
      .ok (containsMatcher (String.intercalate ":" parsed.args))

/-- Matcher produced by `RegexDirective.createMatcher` after the pattern
compiled successfully. -/
def regexMatcher (pat : String) (atoms : List RAtom) (actual : Value)
    (_ : Context) : MatchResult :=
  match actual with
  | .vStr s =>
    if regexSearch atoms s.data then
      { success := true, details := some ("String matches pattern /" ++ pat ++ "/") }
    else
      { success := false,
        error := some ("Expected string to match pattern /" ++ pat ++ "/, but got '" ++ s ++ "'") }
  | v => notStringResult v

/-- `RegexDirective`: rejoin the arguments with `:`, compile once at
construction time (construction fails on an unsupported pattern), then
test the actual string. -/
def regexImpl : DirectiveImpl where
  name := "regex"
  createMatcher parsed :=
    if parsed.args.isEmpty then
      .error "regex directive requires at least one argument"
    else
      let pat := String.intercalate ":" parsed.args
      match compileRegex pat.data with
      | none => .error ("Invalid regex pattern '" ++ pat ++ "'")
      | some atoms => .ok (regexMatcher pat atoms)

/-- Matcher produced by `NumberDirective.createRangeMatcher`: fails on a
non-number actual, otherwise checks the inclusive range. -/
def numberRangeMatcher (range : NumberRange) (actual : Value) (_ : Context) :
    MatchResult :=
  match actual with
  | .vNum x =>
    let (inRange, distance) := isNumberInRange x range
    if inRange then
      { success := true,
        details := some ("Number " ++ toString x ++ " is within range " ++ formatRange range),
        matchedValue := some (.vNum x) }
    else
      { success := false,
        error := some ("Number " ++ toString x ++ " is outside range " ++ formatRange range ++
          " (distance: " ++ toString distance ++ ")") }
  | v => { success := false, error := some ("Expected number, got " ++ typeofJS v) }

/-- Matcher produced by `NumberDirective.createToleranceMatcher`. -/
def numberToleranceMatcher (spec : NumberTolerance) (actual : Value)
    (_ : Context) : MatchResult :=
  match actual with
  | .vNum x =>
    let (within, difference, allowed) := isNumberWithinTolerance x spec
    if within then
      { success := true,
        details := some ("Number " ++ toString x ++ " is within tolerance of " ++
          formatTolerance spec ++ " (difference: " ++ toString difference ++
          ", allowed: " ++ toString allowed ++ ")"),
        matchedValue := some (.vNum x) }
    else
      { success := false,
        error := some ("Number " ++ toString x ++ " exceeds tolerance of " ++
          formatTolerance spec ++ " (difference: " ++ toString difference ++
          ", allowed: " ++ toString allowed ++ ")") }
  | v => { success := false, error := some ("Expected number, got " ++ typeofJS v) }

/-- `NumberDirective`: dispatch on the first argument (`range` or
`tolerance`), each sub-mode requiring two further arguments. -/
def numberImpl : DirectiveImpl where
  name := "number"
  createMatcher parsed :=
    match parsed.args with
    | [] => .error "number directive requires at least one argument"
    | mode :: rest =>
      if mode = "range" then
        match rest with
        | a :: b :: _ => (parseNumberRange a b).map numberRangeMatcher
        | _ => .error "number:range requires 2 arguments: min and max"
      else if mode = "tolerance" then
        match rest with
        | a :: b :: _ => (parseNumberTolerance a b).map numberToleranceMatcher
        | _ => .error "number:tolerance requires 2 arguments: value and tolerance"
      else
        .error ("Unknown number mode '" ++ mode ++ "'. Available modes: range, tolerance")

/-! ### `TimeUtils.ts` (luxon `DateTime` modelled as milliseconds)

Luxon is an external library; a `DateTime` is modelled by its UTC
epoch-millisecond value (a rational, since fractional seconds appear),
`diff ... .as(unit)` by division with luxon's casual conversion matrix
(month = 30 days, year = 365 days) and `plus` by addition of
`offset * unitMillis` (an approximation of luxon's calendar-aware
month/year addition; no claim depends on it). -/

/-- The eight recognised time units. -/
def validUnits : List String :=
  ["milliseconds", "seconds", "minutes", "hours", "days", "weeks", "months", "years"]

/-- Milliseconds per unit (luxon's casual conversion matrix). -/
def unitMillis : String → ℚ
  | "milliseconds" => 1
  | "seconds" => 1000
  | "minutes" => 60000
  | "hours" => 3600000
  | "days" => 86400000
  | "weeks" => 604800000
  | "months" => 2592000000
  | "years" => 31536000000
  | _ => 1

/-- Days from the civil epoch 1970-01-01 for a Gregorian date
(used by the ISO-8601 parser model). -/
def daysFromCivil (y : Int) (m d : Nat) : Int :=
  let y' : Int := if m ≤ 2 then y - 1 else y
  let era : Int := (if 0 ≤ y' then y' else y' - 399) / 400
  let yoe : Int := y' - era * 400
  let mp : Nat := (m + 9) % 12
  let doy : Int := ((153 * mp + 2) / 5 + d - 1 : Nat)
  let doe : Int := yoe * 365 + yoe / 4 - yoe / 100 + doy
  era * 146097 + doe - 719468

/-- Read exactly `n` decimal digits, returning the value and the rest. -/
def takeFixedDigits : Nat → List Char → Option (Nat × List Char)
  | 0, cs => some (0, cs)
  | _ + 1, [] => none
  | n + 1, c :: cs =>
    if c.isDigit then
      (takeFixedDigits n cs).map (fun (v, r) => ((c.toNat - 48) * 10 ^ n + v, r))
    else none

/-- Parse `HH:MM` (used for timezone offsets), returning minutes. -/
def parseHM (cs : List Char) : Option (Nat × List Char) :=
  match takeFixedDigits 2 cs with
  | some (h, ':' :: r) =>
    (takeFixedDigits 2 r).map (fun (m, r2) => (h * 60 + m, r2))
  | _ => none

/-- Model of luxon's `DateTime.fromISO(value, \x7bzone: 'utc'\x7d)` for the
formats the repository exercises: `YYYY-MM-DDTHH:MM[:SS[.mmm]]` with an
optional `Z` or `±HH:MM` offset (UTC assumed when absent); returns epoch
milliseconds. -/
def isoParseMs (s : String) : Option ℚ :=
  match takeFixedDigits 4 s.data with
  | some (y, '-' :: r1) =>
    match takeFixedDigits 2 r1 with
    | some (mo, '-' :: r2) =>
      match takeFixedDigits 2 r2 with
      | some (d, r3) =>
        let dateMs : ℚ := (daysFromCivil y mo d : ℚ) * 86400000
        match r3 with
        | [] => some dateMs
        | 'T' :: r4 =>
          match takeFixedDigits 2 r4 with
          | some (hh, ':' :: r5) =>
            match takeFixedDigits 2 r5 with
            | some (mi, r6) =>
              let secAndRest : Nat × List Char :=
                match r6 with
                | ':' :: r7 =>
                  match takeFixedDigits 2 r7 with
                  | some (ss, r8) => (ss, r8)
                  | none => (0, r6)
                | _ => (0, r6)
              let (ss, r8) := secAndRest
              let msAndRest : ℚ × List Char :=
                match r8 with
                | '.' :: r9 =>
                  match takeDigits 0 0 r9 with
                  | (v, n, r10) =>
                    if n = 0 then (0, r8) else ((v : ℚ) * 1000 / 10 ^ n, r10)
                | _ => (0, r8)
              let (frac, r10) := msAndRest
              let localMs : ℚ :=
                dateMs + (hh * 3600000 + mi * 60000 + ss * 1000 : Nat) + frac
              match r10 with
              | [] => some localMs
              | ['Z'] => some localMs
              | '+' :: r11 =>
                (parseHM r11).bind (fun (mins, r12) =>
                  if r12.isEmpty then some (localMs - mins * 60000) else none)
              | '-' :: r11 =>
                (parseHM r11).bind (fun (mins, r12) =>
                  if r12.isEmpty then some (localMs + mins * 60000) else none)
              | _ => none
            | none => none
          | _ => none
        | _ => none
      | none => none
    | _ => none
  | _ => none

/-- `TimeUtils.parseTimestamp`: ISO strings via the parser model, numbers
as Unix timestamps with the seconds/milliseconds threshold of ten
billion; any other type throws. -/
def parseTimestamp : Value → Except String ℚ
  | .vStr s =>
    match isoParseMs s with
    | some ms => .ok ms
    | none => .error ("Invalid ISO timestamp: " ++ s)
  | .vNum q =>
    if q < 10000000000 then .ok (q * 1000) else .ok q
  | v => .error ("Unsupported timestamp type: " ++ typeofJS v)

/-- `TimeUtils.getBaseTime`: `startTimeTest` when truthy, else
`startTimeScript` when truthy, else the current wall clock
(`Context.now`). -/
def getBaseTime (ctx : Context) : Except String ℚ :=
  match ctx.startTimeTest with
  | some v =>
    if jsTruthy v then parseTimestamp v
    else
      match ctx.startTimeScript with
      | some w => if jsTruthy w then parseTimestamp w else .ok ctx.now
      | none => .ok ctx.now
  | none =>
    match ctx.startTimeScript with
    | some w => if jsTruthy w then parseTimestamp w else .ok ctx.now
    | none => .ok ctx.now

/-- A parsed time range (`TimeRange` type). -/
structure TimeRange where
  before : ℚ
  after : ℚ
  unit : String
deriving Repr

/-- `TimeUtils.isTimeInRange`: convert `actual - base` into the
directive's unit and test inclusion in `[before, after]`. -/
def isTimeInRange (actualMs baseMs : ℚ) (range : TimeRange) : Bool × ℚ :=
  let diffValue := (actualMs - baseMs) / unitMillis range.unit
  (decide (range.before ≤ diffValue ∧ diffValue ≤ range.after), diffValue)

/-- `TimeUtils.formatRange` (display only). -/
def formatTimeRange (range : TimeRange) : String :=
  if range.before == 0 && range.after > 0 then
    "+" ++ toString range.after ++ " " ++ range.unit
  else if range.after == 0 && range.before < 0 then
    toString range.before ++ " " ++ range.unit
  else
    toString range.before ++ ":+" ++ toString range.after ++ " " ++ range.unit

/-- Matcher produced by `TimeDirective.createRangeMatcher`: timestamp
parse errors are caught and reported as a failing result. -/
def timeRangeMatcher (range : TimeRange) (actual : Value) (ctx : Context) :
    MatchResult :=
  match parseTimestamp actual, getBaseTime ctx with
  | .ok actualMs, .ok baseMs =>
    let (inRange, diff) := isTimeInRange actualMs baseMs range
    if inRange then
      { success := true,
        details := some ("Time within range " ++ formatTimeRange range ++
          " (difference: " ++ toString diff ++ " " ++ range.unit ++ ")"),
        matchedValue := some actual }
    else
      { success := false,
        error := some ("Time outside range " ++ formatTimeRange range ++
          ". Difference: " ++ toString diff ++ " " ++ range.unit) }
  | .error msg, _ => { success := false, error := some ("Time parsing error: " ++ msg) }
  | _, .error msg => { success := false, error := some ("Time parsing error: " ++ msg) }

/-- Matcher produced by `TimeDirective.createExactMatcher`: requires the
actual timestamp to equal `base + offset` to the millisecond. -/
def timeExactMatcher (offset : ℚ) (unit : String) (actual : Value)
    (ctx : Context) : MatchResult :=
  match parseTimestamp actual, getBaseTime ctx with
  | .ok actualMs, .ok baseMs =>
    let expectedMs := baseMs + offset * unitMillis unit
    let diff := actualMs - expectedMs
    if diff == 0 then
      { success := true, details := some "Time matches exactly", matchedValue := some actual }
    else
      { success := false,
        error := some ("Time mismatch. Difference: " ++ toString diff ++ " milliseconds") }
  | .error msg, _ => { success := false, error := some ("Time parsing error: " ++ msg) }
  | _, .error msg => { success := false, error := some ("Time parsing error: " ++ msg) }

/-- `TimeDirective`: dispatch on the first argument (`range`/`exact`) with
the argument-count and unit validation of the source. -/
def timeImpl : DirectiveImpl where
  name := "time"
  createMatcher parsed :=
    match parsed.args with
    | [] => .error "time directive requires at least one argument"
    | mode :: rest =>
      if mode = "range" then
        match rest with
        | [a, u] =>
          if !validUnits.contains u then .error ("Invalid time unit '" ++ u ++ "'")
          else
            match jsParseFloat a with
            | none => .error ("Invalid time range value: " ++ a)
            | some v =>
              if 0 ≤ v then .ok (timeRangeMatcher { before := 0, after := v, unit := u })
              else .ok (timeRangeMatcher { before := v, after := 0, unit := u })
        | [a, b, u] =>
          if !validUnits.contains u then .error ("Invalid time unit '" ++ u ++ "'")
          else
            match jsParseFloat a, jsParseFloat b with
            | some bv, some av =>
              .ok (timeRangeMatcher { before := bv, after := av, unit := u })
            | _, _ => .error ("Invalid time range values: " ++ a ++ ", " ++ b)
        | [] => .error "time:range requires at least 2 arguments"
        | [_] => .error "time:range requires at least 2 arguments"
        | _ => .error "Invalid number of arguments for time:range. Expected 2 or 3"
      else if mode = "exact" then
        match rest with
        | [] => .ok (timeExactMatcher 0 "seconds")
        | [a, u] =>
          match jsParseFloat a with
          | none => .error ("Invalid time offset: " ++ a)
          | some off =>
            if !validUnits.contains u then .error ("Invalid time unit '" ++ u ++ "'")
            else .ok (timeExactMatcher off u)
        | _ => .error "time:exact with offset requires exactly 2 arguments: offset and unit"
      else
        .error ("Unknown time mode '" ++ mode ++ "'. Available modes: range, exact")

/-! ### Registry and default engine wiring -/

/-- `CompareRegistry.getDirective`: look the name up, failing with the
source's `Unknown directive` message when absent.  The registry is
modelled by its list of registered directives (registration order). -/
def getDirectiveE (reg : List DirectiveImpl) (name : String) :
    Except String DirectiveImpl :=
  match reg.find? (fun d => d.name == name) with
  | some d => .ok d
  | none => .error ("Unknown directive: " ++ name)

/-- The registry built by `createDefaultEngine`: the six built-in
directives, in registration order. -/
def defaultRegistry : List DirectiveImpl :=
  [startsWithImpl, endsWithImpl, regexImpl, containsImpl, timeImpl, numberImpl]

/-! ### Error/detail records and comparer state (`types.ts`,
`RecursiveComparer.ts`) -/

/-- `CompareErrorType` enumeration. -/
inductive CompareErrorType : Type where
  | MISSING_PROPERTY
  | EXTRA_PROPERTY
  | TYPE_MISMATCH
  | VALUE_MISMATCH
  | PATTERN_MISMATCH
  | RANGE_EXCEEDED
  | ARRAY_LENGTH_MISMATCH
  | ARRAY_ELEMENT_MISMATCH
  | REFERENCE_UNRESOLVED
  | REFERENCE_AMBIGUOUS
  | DIRECTIVE_ERROR
deriving Repr, DecidableEq

/-- A `CompareError` record; `expected`/`actual` are `any` in the source
and carry values, type names or lengths, all representable as `Value`. -/
structure CompareError where
  path : String
  type : CompareErrorType
  expected : Value
  actual : Value
  message : String
deriving Repr

/-- A `CompareDetail` record. -/
structure CompareDetail where
  path : String
  passed : Bool
  expected : Value
  actual : Value
  message : Option String
deriving Repr

/-- One ignore-path configuration (`IgnorePathConfig`). -/
structure IgnorePathConfig where
  path : List String
  doc : Option (List String) := none
deriving Repr

/-- Resolved `CompareOptions` as used by the comparer after the engine's
default merge (`ignoreExtraProperties` defaults to `true`); `maxDepth`
and `maxErrors` keep their JavaScript truthiness quirk (`0` disables the
limit, like `undefined`). -/
structure CompareOptions where
  strictMode : Bool := false
  ignoreExtraProperties : Bool := true
  maxDepth : Option Nat := none
  maxErrors : Option Nat := none
  ignorePaths : List IgnorePathConfig := []
deriving Repr

/-- The options record produced by `CompareEngine.compare` when the
request carries no options at all. -/
def defaultOptions : CompareOptions := {}

/-- Mutable per-invocation comparer state: the error and detail logs plus
the depth counters. -/
structure CState where
  errors : List CompareError := []
  details : List CompareDetail := []
  currentDepth : Nat := 0
  maxDepthReached : Nat := 0
deriving Repr

/-- The freshly reset state installed by `RecursiveComparer.compare`. -/
def emptyCState : CState := {}

/-- `RecursiveComparer.addError`: append to the error log; the path is
dot-joined, `"root"` when empty. -/
def pathJoin (path : List String) : String :=
  let j := String.intercalate "." path
  if j == "" then "root" else j

/-- Append an error record (`RecursiveComparer.addError`). -/
def addError (st : CState) (path : List String) (type : CompareErrorType)
    (expected actual : Value) (message : String) : CState :=
  { st with errors := st.errors ++
      [{ path := pathJoin path, type := type, expected := expected,
         actual := actual, message := message }] }

/-- Append a detail record (`RecursiveComparer.addDetail`). -/
def addDetail (st : CState) (path : List String) (passed : Bool)
    (expected actual : Value) (message : Option String) : CState :=
  { st with details := st.details ++
      [{ path := pathJoin path, passed := passed, expected := expected,
         actual := actual, message := message }] }

/-- Entry bookkeeping of `compareInternal`: increment the depth and
update `maxDepthReached`. -/
def bumpDepth (st : CState) : CState :=
  let st := { st with currentDepth := st.currentDepth + 1 }
  if st.currentDepth > st.maxDepthReached then
    { st with maxDepthReached := st.currentDepth }
  else st

/-- Exit bookkeeping of `compareInternal` (the `finally` decrement). -/
def decDepth (st : CState) : CState :=
  { st with currentDepth := st.currentDepth - 1 }

/-- The `options.maxDepth && currentDepth > options.maxDepth` gate
(JavaScript truthiness: `0` disables the check). -/
def depthGate (opts : CompareOptions) (depth : Nat) : Bool :=
  match opts.maxDepth with
  | some m => m != 0 && depth > m
  | none => false

/-- The `options.maxErrors && errors.length >= options.maxErrors` gate. -/
def errorsGate (opts : CompareOptions) (numErrors : Nat) : Bool :=
  match opts.maxErrors with
  | some m => m != 0 && numErrors ≥ m
  | none => false

/-- `RecursiveComparer.shouldIgnorePath`: the first configured ignore
path that is no longer than the current path and matches it segment-wise
(`*` matches any segment). -/
def ignorePathMatches (segments currentPath : List String) : Bool :=
  match segments, currentPath with
  | [], _ => true
  | _ :: _, [] => false
  | s :: ss, c :: cs => (s == "*" || s == c) && ignorePathMatches ss cs

/-- Find the first matching ignore-path configuration. -/
def shouldIgnorePath (currentPath : List String) :
    List IgnorePathConfig → Option IgnorePathConfig
  | [] => none
  | cfg :: rest =>
    if cfg.path.length ≤ currentPath.length &&
        ignorePathMatches cfg.path currentPath then
      some cfg
    else shouldIgnorePath currentPath rest

/-- The ignore-path detail message
(`Ignored by ignorePath: doc or 'no reason'`). -/
def ignorePathMsg (cfg : IgnorePathConfig) : String :=
  "Ignored by ignorePath: " ++
    (match cfg.doc with
     | some ds => String.intercalate ", " ds
     | none => "no reason")

/-- Array index path segment `[i]`. -/
def idxSeg (i : Nat) : String := "[" ++ toString i ++ "]"

/-- `RecursiveComparer.comparePrimitives`: strict equality or a
value-mismatch error. -/
def comparePrims (expected actual : Value) (path : List String)
    (st : CState) : CState :=
  if jsStrictEq expected actual then
    addDetail st path true expected actual none
  else
    addError st path .VALUE_MISMATCH expected actual "Value mismatch"

/-- `RecursiveComparer.compareWithDirective`: parse the directive, look
it up, build its matcher and run it; every failure along the way is
caught and recorded as a `DIRECTIVE_ERROR`, a failing match as a
`PATTERN_MISMATCH`. -/
def compareWithDirective (reg : List DirectiveImpl) (dirStr : String)
    (actual : Value) (path : List String) (ctx : Context) (st : CState) : CState :=
  let run : Except String MatchResult := do
    let parsed ← parseE dirStr
    let d ← getDirectiveE reg parsed.action
    let m ← d.createMatcher parsed
    pure (m actual ctx)
  match run with
  | .ok r =>
    if r.success then
      addDetail st path true (.vStr dirStr) actual r.details
    else
      addError st path .PATTERN_MISMATCH (.vStr dirStr) actual
        (r.error.getD "Directive match failed")
  | .error msg =>
    addError st path .DIRECTIVE_ERROR (.vStr dirStr) actual
      ("Directive error: " ++ msg)

/-- First value bound to a key (JavaScript property lookup on the object
model). -/
def objGet (fs : List (String × Value)) (k : String) : Option Value :=
  (fs.find? (fun kv => kv.1 == k)).map (fun kv => kv.2)

/-- Does the object have the key (`key in obj`)? -/
def objHas (fs : List (String × Value)) (k : String) : Bool :=
  fs.any (fun kv => kv.1 == k)

/-- The exact-mode test of `compareObjects`:
`expected['\x7b\x7bcompare:exact\x7d\x7d'] === true || options.strictMode === true`. -/
def exactModeOn (fs : List (String × Value)) (opts : CompareOptions) : Bool :=
  (match objGet fs exactKeyword with
   | some (.vBool true) => true
   | _ => false) || opts.strictMode

/-- The expected-key loop of `compareObjects`: skip the exact marker,
record a missing-property error for keys absent from actual, recurse via
`rec` otherwise. -/
def objLoop (rec : Value → Value → List String → CState → CState)
    (afs : List (String × Value)) (path : List String) :
    List (String × Value) → CState → CState
  | [], st => st
  | (k, v) :: rest, st =>
    if k == exactKeyword then objLoop rec afs path rest st
    else if objHas afs k then
      objLoop rec afs path rest (rec v ((objGet afs k).getD .vUndefined) (path ++ [k]) st)
    else
      objLoop rec afs path rest
        (addError st (path ++ [k]) .MISSING_PROPERTY v .vUndefined
          ("Property '" ++ k ++ "' missing in actual object"))

/-- The extra-property scan of `compareObjects`: one error per actual key
absent from expected. -/
def extraScan (fs : List (String × Value)) (path : List String) :
    List (String × Value) → CState → CState
  | [], st => st
  | (k, v) :: rest, st =>
    extraScan fs path rest
      (if objHas fs k then st
       else addError st (path ++ [k]) .EXTRA_PROPERTY .vUndefined v
         ("Extra property '" ++ k ++ "' in actual object"))

/-- `RecursiveComparer.compareObjects`. -/
def compareObjectsF (rec : Value → Value → List String → CState → CState)
    (fs : List (String × Value)) (actual : Value) (path : List String)
    (opts : CompareOptions) (st : CState) : CState :=
  match actual with
  | .vObj afs =>
    let st1 := objLoop rec afs path fs st
    if exactModeOn fs opts || !opts.ignoreExtraProperties then
      extraScan fs path afs st1
    else st1
  | v =>
    addError st path .TYPE_MISMATCH (.vStr "object") (.vStr (typeofJS v))
      "Expected object"

/-- The element loop of `compareArraysOrdered` over the overlapping
prefix: an expected element equal to the ignore keyword records a
passing detail without recursing, every other element recurses. -/
def orderedLoop (rec : Value → Value → List String → CState → CState)
    (path : List String) : Nat → List Value → List Value → CState → CState
  | _, [], _, st => st
  | _, _ :: _, [], st => st
  | i, e :: es, y :: ys, st =>
    let st' :=
      if isKw ignoreKeyword e then
        addDetail st (path ++ [idxSeg i]) true e y (some "Ignored by directive")
      else rec e y (path ++ [idxSeg i]) st
    orderedLoop rec path (i + 1) es ys st'

/-- `RecursiveComparer.compareArraysOrdered`: record (but do not abort
on) a length mismatch, then walk the overlapping prefix. -/
def compareArraysOrdered (rec : Value → Value → List String → CState → CState)
    (path : List String) (es ys : List Value) (st : CState) : CState :=
  let st1 :=
    if es.length ≠ ys.length then
      addError st path .ARRAY_LENGTH_MISMATCH (.vNum es.length) (.vNum ys.length)
        ("Array length mismatch: expected " ++ toString es.length ++
         ", got " ++ toString ys.length)
    else st
  orderedLoop rec path 0 es ys st1

/-- The inner scan of `compareArraysUnordered`: the first actual index
`≥ j` that is unconsumed and trial-matches the expected element, with
the matched value. -/
def findMatchIdx (trial : Value → Value → Bool) (e : Value) :
    List Value → Nat → List Nat → Option (Nat × Value)
  | [], _, _ => none
  | y :: ys, j, matched =>
    if matched.contains j then findMatchIdx trial e ys (j + 1) matched
    else if trial e y then some (j, y)
    else findMatchIdx trial e ys (j + 1) matched

/-- The outer loop of `compareArraysUnordered`: greedily consume, per
expected element in order, the first unconsumed trial-matching actual
element, or record an array-element-mismatch. -/
def unorderedLoop (trial : Value → Value → Bool) (path : List String)
    (ys : List Value) : Nat → List Value → List Nat → CState → CState
  | _, [], _, st => st
  | i, e :: es, matched, st =>
    match findMatchIdx trial e ys 0 matched with
    | some (j, y) =>
      unorderedLoop trial path ys (i + 1) es (matched ++ [j])
        (addDetail st (path ++ [idxSeg i]) true e y (some "Matched in unordered array"))
    | none =>
      unorderedLoop trial path ys (i + 1) es matched
        (addError st (path ++ [idxSeg i]) .ARRAY_ELEMENT_MISMATCH e .vUndefined
          "No matching element found in actual array")

/-- `RecursiveComparer.compareArraysUnordered`: equal lengths required
(abort on mismatch), then the greedy single-assignment matching loop. -/
def compareArraysUnordered (trial : Value → Value → Bool) (path : List String)
    (es ys : List Value) (st : CState) : CState :=
  if es.length ≠ ys.length then
    addError st path .ARRAY_LENGTH_MISMATCH (.vNum es.length) (.vNum ys.length)
      ("Array length mismatch: expected " ++ toString es.length ++
       ", got " ++ toString ys.length)
  else
    unorderedLoop trial path ys 0 es [] st

/-- The element loop of `compareArraysPartial` (no ignore shortcut here;
`compareInternal` handles the keyword during recursion). -/
def partialLoop (rec : Value → Value → List String → CState → CState)
    (path : List String) : Nat → List Value → List Value → CState → CState
  | _, [], _, st => st
  | _, _ :: _, [], st => st
  | i, e :: es, y :: ys, st =>
    partialLoop rec path (i + 1) es ys (rec e y (path ++ [idxSeg i]) st)

/-- `RecursiveComparer.compareArraysPartial`: `actual` must be at least
as long as `expected` (abort otherwise); only the first
`len(expected)` actual elements are compared. -/
def compareArraysPartial (rec : Value → Value → List String → CState → CState)
    (path : List String) (es ys : List Value) (st : CState) : CState :=
  if ys.length < es.length then
    addError st path .ARRAY_LENGTH_MISMATCH
      (.vStr ("at least " ++ toString es.length)) (.vNum ys.length)
      ("Array too short: expected at least " ++ toString es.length ++
       " elements, got " ++ toString ys.length)
  else
    partialLoop rec path 0 es ys st

/-- `RecursiveComparer.compareArrays`: type-mismatch unless actual is an
array; detect and strip the `ignoreOrder`/`ignoreRest` keywords
(`ignoreOrder` wins when both appear) and dispatch to the strategy. -/
def compareArrays (rec : Value → Value → List String → CState → CState)
    (trial : Value → Value → Bool) (path : List String) (xs : List Value)
    (actual : Value) (st : CState) : CState :=
  match actual with
  | .vArr ys =>
    let hasIgnoreOrder := xs.any (isKw ignoreOrderKeyword)
    let hasIgnoreRest := xs.any (isKw ignoreRestKeyword)
    let filtered := xs.filter
      (fun item => !isKw ignoreOrderKeyword item && !isKw ignoreRestKeyword item)
    if hasIgnoreOrder then compareArraysUnordered trial path filtered ys st
    else if hasIgnoreRest then compareArraysPartial rec path filtered ys st
    else compareArraysOrdered rec path filtered ys st
  | v =>
    addError st path .TYPE_MISMATCH (.vStr "array") (.vStr (typeofJS v))
      "Expected array"

/-- `RecursiveComparer.compareInternal`, indexed by fuel (structural
recursion; the wrappers pass `sizeV expected`, which suffices because
every recursive call descends into a structurally smaller expected
value).  Entry/exit depth bookkeeping, the max-depth and max-errors
gates and ignore-path suppression come first; then null/undefined
identity, the ignore keyword, directives, arrays, objects and scalars,
in the source's precedence order.  The unordered-array trial runs a
fresh comparer (`testMatch`): fresh empty state, root path, same
context, options and registry, and only the emptiness of its error log
is consulted. -/
def compareInternal (reg : List DirectiveImpl) :
    Nat → Value → Value → List String → Context → CompareOptions → CState → CState
  | 0, _, _, _, _, _, st => st
  | fuel + 1, expected, actual, path, ctx, opts, st =>
    let st1 := bumpDepth st
    if depthGate opts st1.currentDepth then
      decDepth (addError st1 path .DIRECTIVE_ERROR expected actual
        ("Maximum depth " ++ toString (opts.maxDepth.getD 0) ++ " exceeded"))
    else if errorsGate opts st1.errors.length then
      decDepth st1
    else
      match
        (if opts.ignorePaths.length > 0 then shouldIgnorePath path opts.ignorePaths
         else none) with
      | some cfg =>
        decDepth (addDetail st1 path true expected actual (some (ignorePathMsg cfg)))
      | none =>
        let recCI : Value → Value → List String → CState → CState :=
          fun e a p s => compareInternal reg fuel e a p ctx opts s
        let trial : Value → Value → Bool :=
          fun e a =>
            (compareInternal reg fuel e a [] ctx opts emptyCState).errors.length == 0
        decDepth
          (match expected with
           | .vNull =>
             if jsStrictEq .vNull actual then addDetail st1 path true expected actual none
             else addError st1 path .VALUE_MISMATCH expected actual "Value mismatch"
           | .vUndefined =>
             if jsStrictEq .vUndefined actual then addDetail st1 path true expected actual none
             else addError st1 path .VALUE_MISMATCH expected actual "Value mismatch"
           | .vStr s =>
             if s == ignoreKeyword then
               addDetail st1 path true expected actual (some "Ignored by directive")
             else if isDirective s then
               compareWithDirective reg s actual path ctx st1
             else
               comparePrims expected actual path st1
           | .vArr xs => compareArrays recCI trial path xs actual st1
           | .vObj fs => compareObjectsF recCI fs actual path opts st1
           | e => comparePrims e actual path st1)

/-- `RecursiveComparer.compare`: reset the state and run
`compareInternal` at the root path. -/
def comparerCompare (reg : List DirectiveImpl) (expected actual : Value)
    (ctx : Context) (opts : CompareOptions) : CState :=
  compareInternal reg (sizeV expected) expected actual [] ctx opts emptyCState

/-- `testMatch` (used by the unordered strategy): a fresh comparer on the
same parser/registry, whose result is only inspected for emptiness of
the error log. -/
def testMatch (reg : List DirectiveImpl) (fuel : Nat) (e a : Value)
    (ctx : Context) (opts : CompareOptions) : Bool :=
  (compareInternal reg fuel e a [] ctx opts emptyCState).errors.length == 0

/-! ### Engine facade (`CompareEngine.ts`) and `compareData` -/

/-- `CompareStats` (the `duration` of the source is elapsed wall time and
is modelled as 0; `maxDepthReached` is absent when the comparer never
ran). -/
structure CompareStats where
  totalChecks : Nat
  passedChecks : Nat
  failedChecks : Nat
  duration : ℚ
  maxDepthReached : Option Nat
deriving Repr

/-- `CompareResult`. -/
structure CompareResult where
  success : Bool
  errors : List CompareError
  details : List CompareDetail
  stats : CompareStats
deriving Repr

/-- `CompareEngine.buildResult`: success iff no errors; the stats are
derived from the logs, never independently counted. -/
def buildResult (errors : List CompareError) (details : List CompareDetail)
    (maxDepthReached : Option Nat) : CompareResult :=
  let passed := (details.filter (fun d => d.passed)).length
  let failed := errors.length
  { success := errors.length == 0,
    errors := errors,
    details := details,
    stats := { totalChecks := passed + failed, passedChecks := passed,
               failedChecks := failed, duration := 0,
               maxDepthReached := maxDepthReached } }

/-- `CompareEngine.compare`: when `actual` is `undefined` the engine
short-circuits to a single missing-property error for the root path
without running the comparer; otherwise it delegates to a fresh
`RecursiveComparer`.  The `options` argument is the merged record (the
engine's only default, `ignoreExtraProperties := true`, is the field
default of `CompareOptions`). -/
def engineCompare (reg : List DirectiveImpl) (expected actual : Value)
    (ctx : Context) (opts : CompareOptions) : CompareResult :=
  match actual with
  | .vUndefined =>
    buildResult
      [{ path := "root", type := .MISSING_PROPERTY, expected := .vStr "any value",
         actual := .vUndefined, message := "Actual value is undefined" }]
      [] none
  | _ =>
    let r := comparerCompare reg expected actual ctx opts
    buildResult r.errors r.details (some r.maxDepthReached)

/-- `compareData` (package index): build the default engine and compare.
The request's `context`/`options` default to empty. -/
def compareData (expected actual : Value) (ctx : Context := {})
    (opts : CompareOptions := {}) : CompareResult :=
  engineCompare defaultRegistry expected actual ctx opts

/-! ### Claim-side (specification) definitions referenced by the theorems -/

/-- The allowed difference of a tolerance specification, as the claim
states it (`|value| * N / 100` for a percentage, `N` for an absolute
tolerance). -/
def allowedDiff (spec : NumberTolerance) : ℚ :=
  if spec.isPercentage then |spec.value| * spec.tolerance / 100
  else spec.tolerance

/-- One index step of the ordered strategy as claim C4 states it: an
expected element equal to the literal ignore keyword records a passing
detail for that index without inspecting the actual element; any other
expected element is compared recursively at path `[...][i]`. -/
def orderedStep (rec : Value → Value → List String → CState → CState)
    (path : List String) (st : CState) (p : Nat × Value × Value) : CState :=
  if isKw ignoreKeyword p.2.1 then
    addDetail st (path ++ [idxSeg p.1]) true p.2.1 p.2.2 (some "Ignored by directive")
  else rec p.2.1 p.2.2 (path ++ [idxSeg p.1]) st

/-- The ordered strategy as claim C4 states it: fold the per-index step
over the enumerated overlapping prefix (`zip` stops at
`min (len expected) (len actual)`). -/
def orderedSpec (rec : Value → Value → List String → CState → CState)
    (path : List String) (es ys : List Value) (st : CState) : CState :=
  ((es.zip ys).enum).foldl (orderedStep rec path) st

/-- Key uniqueness of the object model (JavaScript objects cannot carry
duplicate keys, so embedded field lists are assumed duplicate-free). -/
def keysNodup : List (String × Value) → Bool
  | [] => true
  | (k, _) :: fs => !objHas fs k && keysNodup fs

mutual

/-- Plain data, for claim C2's extra-property-tolerance clause: no string
anywhere matches the directive grammar (which also rules out the four
keywords), no object carries the exact marker key or duplicate keys. -/
def isPlain : Value → Bool
  | .vStr s => !isDirective s
  | .vArr xs => isPlainL xs
  | .vObj fs => keysNodup fs && isPlainF fs
  | _ => true

/-- All members plain. -/
def isPlainL : List Value → Bool
  | [] => true
  | v :: vs => isPlain v && isPlainL vs

/-- All field values plain and no exact marker key. -/
def isPlainF : List (String × Value) → Bool
  | [] => true
  | (k, v) :: fs => !(k == exactKeyword) && isPlain v && isPlainF fs

end

/-- The extra-property error record for a surplus actual key, as
`compareObjects` appends it. -/
def extraErrFor (path : List String) (kv : String × Value) : CompareError :=
  { path := pathJoin (path ++ [kv.1]), type := .EXTRA_PROPERTY,
    expected := .vUndefined, actual := kv.2,
    message := "Extra property '" ++ kv.1 ++ "' in actual object" }

/-- The first unconsumed actual index whose isolated trial comparison
succeeds, as claim C1 states it: scan the indices left to right and take
the first one that is not yet consumed and trial-matches. -/
def specFirstIdx (trial : Value → Value → Bool) (e : Value) (ys : List Value)
    (consumed : List Nat) : Option Nat :=
  (List.range ys.length).find?
    (fun j => !consumed.contains j && trial e (ys.getD j .vNull))

/-- The unordered matching loop as claim C1 states it: per expected
element in declaration order, consume the first unconsumed trial-matching
actual element and record a pass, or record an array-element-mismatch at
that expected index. -/
def unorderedSpecLoop (trial : Value → Value → Bool) (path : List String)
    (ys : List Value) : Nat → List Value → List Nat → CState → CState
  | _, [], _, st => st
  | i, e :: es, consumed, st =>
    match specFirstIdx trial e ys consumed with
    | some j =>
      unorderedSpecLoop trial path ys (i + 1) es (consumed ++ [j])
        (addDetail st (path ++ [idxSeg i]) true e (ys.getD j .vNull)
          (some "Matched in unordered array"))
    | none =>
      unorderedSpecLoop trial path ys (i + 1) es consumed
        (addError st (path ++ [idxSeg i]) .ARRAY_ELEMENT_MISMATCH e .vUndefined
          "No matching element found in actual array")

/-- The indices consumed by the greedy loop. -/
def specConsumed (trial : Value → Value → Bool) (ys : List Value) :
    List Value → List Nat → List Nat
  | [], consumed => consumed
  | e :: es, consumed =>
    match specFirstIdx trial e ys consumed with
    | some j => specConsumed trial ys es (consumed ++ [j])
    | none => specConsumed trial ys es consumed

/-! ## Basic bookkeeping lemmas -/

@[simp] theorem addError_errors (st : CState) (p : List String)
    (t : CompareErrorType) (e a : Value) (m : String) :
    (addError st p t e a m).errors =
      st.errors ++ [{ path := pathJoin p, type := t, expected := e,
                      actual := a, message := m }] := rfl

@[simp] theorem addError_details (st : CState) (p : List String)
    (t : CompareErrorType) (e a : Value) (m : String) :
    (addError st p t e a m).details = st.details := rfl

@[simp] theorem addDetail_errors (st : CState) (p : List String) (pa : Bool)
    (e a : Value) (m : Option String) :
    (addDetail st p pa e a m).errors = st.errors := rfl

@[simp] theorem addDetail_details (st : CState) (p : List String) (pa : Bool)
    (e a : Value) (m : Option String) :
    (addDetail st p pa e a m).details =
      st.details ++ [{ path := pathJoin p, passed := pa, expected := e,
                       actual := a, message := m }] := rfl

@[simp] theorem bumpDepth_errors (st : CState) : (bumpDepth st).errors = st.errors := by
  unfold bumpDepth; dsimp only; split <;> rfl

@[simp] theorem bumpDepth_details (st : CState) : (bumpDepth st).details = st.details := by
  unfold bumpDepth; dsimp only; split <;> rfl

@[simp] theorem addError_currentDepth (st : CState) (p : List String)
    (t : CompareErrorType) (e a : Value) (m : String) :
    (addError st p t e a m).currentDepth = st.currentDepth := rfl

@[simp] theorem addError_maxDepthReached (st : CState) (p : List String)
    (t : CompareErrorType) (e a : Value) (m : String) :
    (addError st p t e a m).maxDepthReached = st.maxDepthReached := rfl

@[simp] theorem addDetail_currentDepth (st : CState) (p : List String) (pa : Bool)
    (e a : Value) (m : Option String) :
    (addDetail st p pa e a m).currentDepth = st.currentDepth := rfl

@[simp] theorem addDetail_maxDepthReached (st : CState) (p : List String) (pa : Bool)
    (e a : Value) (m : Option String) :
    (addDetail st p pa e a m).maxDepthReached = st.maxDepthReached := rfl

@[simp] theorem decDepth_errors (st : CState) : (decDepth st).errors = st.errors := rfl

@[simp] theorem decDepth_details (st : CState) : (decDepth st).details = st.details := rfl

@[simp] theorem bumpDepth_currentDepth (st : CState) :
    (bumpDepth st).currentDepth = st.currentDepth + 1 := by
  unfold bumpDepth; dsimp only; split <;> rfl

/-- With no `maxDepth` configured the depth gate never fires. -/
@[simp] theorem depthGate_none (opts : CompareOptions) (h : opts.maxDepth = none)
    (d : Nat) : depthGate opts d = false := by
  unfold depthGate; rw [h]

/-- The depth gate never fires on entry depth 1 (a configured bound of 0
is ignored by JavaScript truthiness, and any other bound is at least 1). -/
theorem depthGate_one (opts : CompareOptions) : depthGate opts 1 = false := by
  unfold depthGate
  match h : opts.maxDepth with
  | none => rfl
  | some m => cases m <;> simp

/-- With no `maxErrors` configured the error budget gate never fires. -/
@[simp] theorem errorsGate_none (opts : CompareOptions) (h : opts.maxErrors = none)
    (n : Nat) : errorsGate opts n = false := by
  unfold errorsGate; rw [h]

/-- The error budget gate never fires on an empty error log. -/
theorem errorsGate_zero (opts : CompareOptions) : errorsGate opts 0 = false := by
  unfold errorsGate
  match h : opts.maxErrors with
  | none => rfl
  | some m => cases m <;> simp

/-! ## Claim C7 -/

/-- Claim C7: the regex directive whose pattern contains a literal brace
quantifier is handled end to end: `\x7b\x7bcompare:regex:user_[0-9]\x7b5\x7d\x7d\x7d`
is recognised by `isDirective`, `parse` extracts the pattern
`user_[0-9]\x7b5\x7d` (interior braces do not end the directive; only
the final `\x7d\x7d` closes it), and comparing it against the actual
string `user_12345` yields `success = true`. -/
theorem claim_C7_regex_interior_braces :
    isDirective "\x7b\x7bcompare:regex:user_[0-9]\x7b5\x7d\x7d\x7d" = true ∧
    (parseE "\x7b\x7bcompare:regex:user_[0-9]\x7b5\x7d\x7d\x7d").toOption.map
      (fun p => (p.action, p.args)) = some ("regex", ["user_[0-9]\x7b5\x7d"]) ∧
    (compareData (.vStr "\x7b\x7bcompare:regex:user_[0-9]\x7b5\x7d\x7d\x7d")
      (.vStr "user_12345")).success = true :=
  ⟨by decide, by decide, by decide⟩

/-! ## Claim C5 -/

/-- Claim C5: number directive arithmetic.  Range construction fails iff
either bound is non-numeric or `min > max`; the range predicate succeeds
on a numeric actual iff `min ≤ actual ≤ max` (both ends inclusive) and
fails on every non-number; the tolerance predicate succeeds on a numeric
actual iff `|actual − value|` is at most the allowed difference
(`|value| * N / 100` in percentage mode, `N` in absolute mode) and fails
on every non-number. -/
theorem claim_C5_number_directive :
    (∀ s t mn mx, jsParseFloat s = some mn → jsParseFloat t = some mx →
      mn ≤ mx → parseNumberRange s t = .ok { min := mn, max := mx }) ∧
    (∀ s t mn mx, jsParseFloat s = some mn → jsParseFloat t = some mx →
      mx < mn → ∃ msg, parseNumberRange s t = .error msg) ∧
    (∀ s t, (jsParseFloat s = none ∨ jsParseFloat t = none) →
      ∃ msg, parseNumberRange s t = .error msg) ∧
    (∀ r x ctx, (numberRangeMatcher r (.vNum x) ctx).success = true ↔
      (r.min ≤ x ∧ x ≤ r.max)) ∧
    (∀ r ctx, r.min ≤ r.max →
      (numberRangeMatcher r (.vNum r.min) ctx).success = true ∧
      (numberRangeMatcher r (.vNum r.max) ctx).success = true) ∧
    (∀ r v ctx, (∀ x, v ≠ .vNum x) → (numberRangeMatcher r v ctx).success = false) ∧
    (∀ spec x ctx, (numberToleranceMatcher spec (.vNum x) ctx).success = true ↔
      |x - spec.value| ≤ allowedDiff spec) ∧
    (∀ spec v ctx, (∀ x, v ≠ .vNum x) →
      (numberToleranceMatcher spec v ctx).success = false) := by
  refine ⟨?_, ?_, ?_, ?_, ?_, ?_, ?_, ?_⟩
  · intro s t mn mx hs ht hle
    unfold parseNumberRange
    rw [hs, ht]
    dsimp only
    rw [if_neg (not_lt.mpr hle)]
  · intro s t mn mx hs ht hlt
    unfold parseNumberRange
    rw [hs, ht]
    dsimp only
    rw [if_pos hlt]
    exact ⟨_, rfl⟩
  · intro s t h
    unfold parseNumberRange
    rcases h with h | h
    · rw [h]; exact ⟨_, rfl⟩
    · rw [h]
      cases jsParseFloat s <;> exact ⟨_, rfl⟩
  · intro r x ctx
    unfold numberRangeMatcher isNumberInRange
    dsimp only
    split <;> simp_all
  · intro r ctx h
    unfold numberRangeMatcher isNumberInRange
    constructor <;> (dsimp only; split <;> simp_all)
  · intro r v ctx h
    unfold numberRangeMatcher
    cases v with
    | vNum x => exact absurd rfl (h x)
    | vNull => rfl
    | vUndefined => rfl
    | vBool b => rfl
    | vStr s => rfl
    | vArr xs => rfl
    | vObj fs => rfl
  · intro spec x ctx
    unfold numberToleranceMatcher isNumberWithinTolerance allowedDiff
    dsimp only
    split <;> (split <;> simp_all)
  · intro spec v ctx h
    unfold numberToleranceMatcher
    cases v with
    | vNum x => exact absurd rfl (h x)
    | vNull => rfl
    | vUndefined => rfl
    | vBool b => rfl
    | vStr s => rfl
    | vArr xs => rfl
    | vObj fs => rfl

/-- Witness for claim C5 at concrete inputs: `number:range:0:100` parses
to the range `[0, 100]`, `85` lies inside it, and
`tolerance 42 ± 5` accepts `44`. -/
theorem claim_C5_witness :
    parseNumberRange "0" "100" = .ok { min := 0, max := 100 } ∧
    (numberRangeMatcher { min := 0, max := 100 } (.vNum 85) {}).success = true ∧
    (numberToleranceMatcher { value := 42, tolerance := 5, isPercentage := false }
      (.vNum 44) {}).success = true := by
  refine ⟨?_, ?_, ?_⟩
  · exact claim_C5_number_directive.1 "0" "100" 0 100 (by decide) (by decide) (by decide)
  · exact (claim_C5_number_directive.2.2.2.1 { min := 0, max := 100 } 85 {}).mpr
      (by constructor <;> decide)
  · exact (claim_C5_number_directive.2.2.2.2.2.2.1
      { value := 42, tolerance := 5, isPercentage := false } 44 {}).mpr (by decide)

/-! ## Claim C6 -/

/-- Claim C6: a request whose actual value is `undefined` returns exactly
one missing-property error at path `root`, records no details (no
recursive comparison runs), and fails; for every other actual value the
engine adds no call-level error or detail of its own — the result logs
are exactly the comparer's. -/
theorem claim_C6_undefined_actual :
    (∀ reg e ctx opts,
      (engineCompare reg e .vUndefined ctx opts).errors =
        [{ path := "root", type := .MISSING_PROPERTY, expected := .vStr "any value",
           actual := .vUndefined, message := "Actual value is undefined" }] ∧
      (engineCompare reg e .vUndefined ctx opts).details = [] ∧
      (engineCompare reg e .vUndefined ctx opts).success = false) ∧
    (∀ reg e a ctx opts, a ≠ .vUndefined →
      (engineCompare reg e a ctx opts).errors = (comparerCompare reg e a ctx opts).errors ∧
      (engineCompare reg e a ctx opts).details = (comparerCompare reg e a ctx opts).details) := by
  constructor
  · intro reg e ctx opts
    exact ⟨rfl, rfl, rfl⟩
  · intro reg e a ctx opts h
    cases a with
    | vUndefined => exact absurd rfl h
    | vNull => exact ⟨rfl, rfl⟩
    | vBool b => exact ⟨rfl, rfl⟩
    | vNum q => exact ⟨rfl, rfl⟩
    | vStr s => exact ⟨rfl, rfl⟩
    | vArr xs => exact ⟨rfl, rfl⟩
    | vObj fs => exact ⟨rfl, rfl⟩

/-- Witness for claim C6: with `expected = undefined` and
`actual = undefined` the engine fails with the single root error, and
with `actual = null` the engine log equals the comparer log. -/
theorem claim_C6_witness :
    (engineCompare defaultRegistry .vUndefined .vUndefined {} {}).success = false ∧
    (engineCompare defaultRegistry .vNull .vNull {} {}).errors =
      (comparerCompare defaultRegistry .vNull .vNull {} {}).errors :=
  ⟨(claim_C6_undefined_actual.1 defaultRegistry .vUndefined {} {}).2.2,
   (claim_C6_undefined_actual.2 defaultRegistry .vNull .vNull {} {} nofun).1⟩

/-! ## Claim C3 -/

/-- The engine succeeds whenever the comparer produced no errors (and the
actual value is defined, so the comparer actually ran). -/
theorem engine_success_of_nil (reg : List DirectiveImpl) (e a : Value)
    (ctx : Context) (opts : CompareOptions) (ha : a ≠ .vUndefined)
    (hr : (comparerCompare reg e a ctx opts).errors = []) :
    (engineCompare reg e a ctx opts).success = true := by
  cases a with
  | vUndefined => exact absurd rfl ha
  | vNull => show ((comparerCompare reg e _ ctx opts).errors.length == 0) = true; rw [hr]; rfl
  | vBool b => show ((comparerCompare reg e _ ctx opts).errors.length == 0) = true; rw [hr]; rfl
  | vNum q => show ((comparerCompare reg e _ ctx opts).errors.length == 0) = true; rw [hr]; rfl
  | vStr s => show ((comparerCompare reg e _ ctx opts).errors.length == 0) = true; rw [hr]; rfl
  | vArr xs => show ((comparerCompare reg e _ ctx opts).errors.length == 0) = true; rw [hr]; rfl
  | vObj fs => show ((comparerCompare reg e _ ctx opts).errors.length == 0) = true; rw [hr]; rfl

/-- The comparer records no error for an expected value equal to the
ignore keyword, whatever the actual value, context and options. -/
theorem comparer_ignore_errors_nil (reg : List DirectiveImpl) (a : Value)
    (ctx : Context) (opts : CompareOptions) :
    (comparerCompare reg (.vStr ignoreKeyword) a ctx opts).errors = [] := by
  unfold comparerCompare
  have hs : sizeV (Value.vStr ignoreKeyword) = 1 := rfl
  rw [hs]
  unfold compareInternal
  dsimp only
  have hD : depthGate opts (bumpDepth emptyCState).currentDepth = false := by
    rw [bumpDepth_currentDepth]; exact depthGate_one opts
  have hE : errorsGate opts (bumpDepth emptyCState).errors.length = false := by
    have h0 : (bumpDepth emptyCState).errors.length = 0 := rfl
    rw [h0]; exact errorsGate_zero opts
  rw [hD, hE]
  simp only [Bool.false_eq_true, if_false]
  split
  · simp [emptyCState]
  · simp [emptyCState]

/-- Claim C3: for every (defined) value `aV`, `compareData` with expected
equal to the string `\x7b\x7bcompare:ignore\x7d\x7d` and actual `aV`
succeeds: the ignore keyword records a passing detail and performs no
type or value check on the actual value, under any context and options.
(`aV = undefined` is outside the value model; the engine then
short-circuits per claim C6.) -/
theorem claim_C3_ignore_neutrality (aV : Value) (h : aV ≠ .vUndefined)
    (ctx : Context) (opts : CompareOptions) :
    (compareData (.vStr ignoreKeyword) aV ctx opts).success = true :=
  engine_success_of_nil defaultRegistry (.vStr ignoreKeyword) aV ctx opts h
    (comparer_ignore_errors_nil defaultRegistry aV ctx opts)

/-- Witness for claim C3 at a concrete input: the ignore directive
accepts the number 42. -/
theorem claim_C3_witness :
    (compareData (.vStr ignoreKeyword) (.vNum 42) {} {}).success = true :=
  claim_C3_ignore_neutrality (.vNum 42) nofun {} {}

/-! ## Claim C10 -/

/-- Claim C10: of the four structural keywords only
`\x7b\x7bcompare:ignore\x7d\x7d` is special-cased as an expected scalar;
for every defined actual value, an expected scalar equal to
`\x7b\x7bcompare:exact\x7d\x7d`, `\x7b\x7bcompare:ignoreRest\x7d\x7d` or
`\x7b\x7bcompare:ignoreOrder\x7d\x7d` is parsed as a directive, fails
the registry lookup of the default engine, and records exactly one
directive-error at that path (instead of a literal string comparison),
so the comparison fails. -/
theorem claim_C10_keywords_not_registered (aV : Value) (h : aV ≠ .vUndefined)
    (ctx : Context) :
    ((compareData (.vStr exactKeyword) aV ctx {}).errors.map
        (fun err => (err.path, err.type, err.message)) =
      [("root", .DIRECTIVE_ERROR, "Directive error: Unknown directive: exact")] ∧
     (compareData (.vStr exactKeyword) aV ctx {}).success = false) ∧
    ((compareData (.vStr ignoreRestKeyword) aV ctx {}).errors.map
        (fun err => (err.path, err.type, err.message)) =
      [("root", .DIRECTIVE_ERROR, "Directive error: Unknown directive: ignoreRest")] ∧
     (compareData (.vStr ignoreRestKeyword) aV ctx {}).success = false) ∧
    ((compareData (.vStr ignoreOrderKeyword) aV ctx {}).errors.map
        (fun err => (err.path, err.type, err.message)) =
      [("root", .DIRECTIVE_ERROR, "Directive error: Unknown directive: ignoreOrder")] ∧
     (compareData (.vStr ignoreOrderKeyword) aV ctx {}).success = false) := by
  cases aV with
  | vUndefined => exact absurd rfl h
  | vNull => exact ⟨⟨rfl, rfl⟩, ⟨rfl, rfl⟩, ⟨rfl, rfl⟩⟩
  | vBool b => exact ⟨⟨rfl, rfl⟩, ⟨rfl, rfl⟩, ⟨rfl, rfl⟩⟩
  | vNum q => exact ⟨⟨rfl, rfl⟩, ⟨rfl, rfl⟩, ⟨rfl, rfl⟩⟩
  | vStr s => exact ⟨⟨rfl, rfl⟩, ⟨rfl, rfl⟩, ⟨rfl, rfl⟩⟩
  | vArr xs => exact ⟨⟨rfl, rfl⟩, ⟨rfl, rfl⟩, ⟨rfl, rfl⟩⟩
  | vObj fs => exact ⟨⟨rfl, rfl⟩, ⟨rfl, rfl⟩, ⟨rfl, rfl⟩⟩

/-- Witness for claim C10 at a concrete input: comparing the exact
keyword as an expected scalar against the number 1 yields the single
directive-error. -/
theorem claim_C10_witness :
    (compareData (.vStr exactKeyword) (.vNum 1) {} {}).success = false :=
  (claim_C10_keywords_not_registered (.vNum 1) nofun {}).1.2

/-! ## Claim C4 -/

/-- The source's ordered element loop is the fold of `orderedStep` over
the enumerated zip. -/
theorem orderedLoop_eq_foldl (rec : Value → Value → List String → CState → CState)
    (path : List String) (es : List Value) :
    ∀ ys i st, orderedLoop rec path i es ys st =
      (List.enumFrom i (es.zip ys)).foldl (orderedStep rec path) st := by
  induction es with
  | nil => intro ys i st; cases ys <;> rfl
  | cons e es ih =>
    intro ys i st
    cases ys with
    | nil => rfl
    | cons y ys =>
      show orderedLoop rec path (i + 1) es ys _ = _
      rw [ih ys (i + 1)]
      rfl

/-- An expected array free of the `ignoreOrder`/`ignoreRest` keywords
dispatches to the ordered strategy with nothing filtered out. -/
theorem compareArrays_dispatch_ordered
    (rec : Value → Value → List String → CState → CState)
    (trial : Value → Value → Bool) (path : List String) (xs ys : List Value)
    (st : CState)
    (h : ∀ x ∈ xs, isKw ignoreOrderKeyword x = false ∧ isKw ignoreRestKeyword x = false) :
    compareArrays rec trial path xs (.vArr ys) st =
      compareArraysOrdered rec path xs ys st := by
  unfold compareArrays
  have h1 : xs.any (isKw ignoreOrderKeyword) = false := by
    simp only [List.any_eq_false]
    intro x hx
    simp [(h x hx).1]
  have h2 : xs.any (isKw ignoreRestKeyword) = false := by
    simp only [List.any_eq_false]
    intro x hx
    simp [(h x hx).2]
  have h3 : xs.filter
      (fun item => !isKw ignoreOrderKeyword item && !isKw ignoreRestKeyword item) = xs := by
    rw [List.filter_eq_self]
    intro x hx
    simp [(h x hx).1, (h x hx).2]
  rw [h1, h2, h3]
  simp

/-- Claim C4: in the default ordered mode a length difference records one
array-length-mismatch error but does not abort — the comparer still runs
the per-index walk over indices `0..min(len expected, len actual)` —
and, at each such index, an expected element equal to the ignore keyword
records a passing detail without inspecting the actual element while any
other expected element is compared recursively at path `[...][i]`; an
expected array free of the `ignoreOrder`/`ignoreRest` keywords always
dispatches to this ordered strategy. -/
theorem claim_C4_ordered_arrays :
    (∀ rec path (es ys : List Value) (st : CState), es.length ≠ ys.length →
      compareArraysOrdered rec path es ys st =
        orderedSpec rec path es ys
          (addError st path .ARRAY_LENGTH_MISMATCH (.vNum es.length) (.vNum ys.length)
            ("Array length mismatch: expected " ++ toString es.length ++
             ", got " ++ toString ys.length))) ∧
    (∀ rec path (es ys : List Value) (st : CState), es.length = ys.length →
      compareArraysOrdered rec path es ys st = orderedSpec rec path es ys st) ∧
    (∀ rec path i (y : Value) (st : CState),
      orderedStep rec path st (i, .vStr ignoreKeyword, y) =
        addDetail st (path ++ [idxSeg i]) true (.vStr ignoreKeyword) y
          (some "Ignored by directive")) ∧
    (∀ rec path i (e y : Value) (st : CState), isKw ignoreKeyword e = false →
      orderedStep rec path st (i, e, y) = rec e y (path ++ [idxSeg i]) st) ∧
    (∀ rec trial path (xs ys : List Value) (st : CState),
      (∀ x ∈ xs, isKw ignoreOrderKeyword x = false ∧ isKw ignoreRestKeyword x = false) →
      compareArrays rec trial path xs (.vArr ys) st =
        compareArraysOrdered rec path xs ys st) := by
  refine ⟨?_, ?_, ?_, ?_, ?_⟩
  · intro rec path es ys st h
    unfold compareArraysOrdered orderedSpec
    rw [if_pos h, List.enum, orderedLoop_eq_foldl]
  · intro rec path es ys st h
    unfold compareArraysOrdered orderedSpec
    rw [if_neg (by simp [h]), List.enum, orderedLoop_eq_foldl]
  · intro rec path i y st
    unfold orderedStep
    rw [if_pos (by simp [isKw])]
  · intro rec path i e y st h
    unfold orderedStep
    rw [if_neg (by simp [h])]
  · intro rec trial path xs ys st h
    exact compareArrays_dispatch_ordered rec trial path xs ys st h

/-- Witness for claim C4 at concrete inputs: comparing `[1, 2, 3]`
against `[1, 2]` (length mismatch) still walks the two overlapping
indices after recording the length error. -/
theorem claim_C4_witness :
    compareArraysOrdered (fun e a p s => comparePrims e a p s) []
      [.vNum 1, .vNum 2, .vNum 3] [.vNum 1, .vNum 2] emptyCState =
    orderedSpec (fun e a p s => comparePrims e a p s) []
      [.vNum 1, .vNum 2, .vNum 3] [.vNum 1, .vNum 2]
      (addError emptyCState [] .ARRAY_LENGTH_MISMATCH (.vNum 3) (.vNum 2)
        ("Array length mismatch: expected " ++ toString (3 : Nat) ++
         ", got " ++ toString (2 : Nat))) :=
  claim_C4_ordered_arrays.1 (fun e a p s => comparePrims e a p s) []
    [.vNum 1, .vNum 2, .vNum 3] [.vNum 1, .vNum 2] emptyCState (by decide)

/-! ## Claim C2 -/

theorem sizeV_pos (v : Value) : 1 ≤ sizeV v := by
  cases v <;> simp [sizeV]

theorem sizeVL_of_mem {x : Value} {xs : List Value} (h : x ∈ xs) :
    sizeV x + 1 ≤ sizeVL xs := by
  induction xs with
  | nil => cases h
  | cons y ys ih =>
    rcases List.mem_cons.mp h with rfl | h'
    · simp [sizeVL]; omega
    · have := ih h'
      simp [sizeVL]; omega

theorem sizeVF_of_mem {k : String} {v : Value} {fs : List (String × Value)}
    (h : (k, v) ∈ fs) : sizeV v + 1 ≤ sizeVF fs := by
  induction fs with
  | nil => cases h
  | cons kv fs ih =>
    rcases List.mem_cons.mp h with rfl | h'
    · simp [sizeVF]; omega
    · have := ih h'
      obtain ⟨k', v'⟩ := kv
      simp [sizeVF]; omega

theorem isPlainL_mem {xs : List Value} (h : isPlainL xs = true) :
    ∀ x ∈ xs, isPlain x = true := by
  induction xs with
  | nil => intro x hx; cases hx
  | cons y ys ih =>
    simp only [isPlainL, Bool.and_eq_true] at h
    intro x hx
    rcases List.mem_cons.mp hx with rfl | hx'
    · exact h.1
    · exact ih h.2 x hx'

theorem isPlainF_mem {fs : List (String × Value)} (h : isPlainF fs = true) :
    ∀ kv ∈ fs, kv.1 ≠ exactKeyword ∧ isPlain kv.2 = true := by
  induction fs with
  | nil => intro kv hkv; cases hkv
  | cons kv₀ fs ih =>
    obtain ⟨k, v⟩ := kv₀
    simp only [isPlainF, Bool.and_eq_true, Bool.not_eq_true', beq_eq_false_iff_ne] at h
    obtain ⟨⟨h1, h2⟩, h3⟩ := h
    intro kv hkv
    rcases List.mem_cons.mp hkv with rfl | hkv'
    · exact ⟨h1, h2⟩
    · exact ih h3 kv hkv'

/-- A string equal to one of the directive-grammar keywords is not
plain, so plain values never test equal to a keyword literal. -/
theorem isKw_false_of_plain {kw : String} (hkw : isDirective kw = true)
    {x : Value} (hx : isPlain x = true) : isKw kw x = false := by
  cases x with
  | vStr s =>
    simp only [isPlain, Bool.not_eq_true'] at hx
    simp only [isKw, beq_eq_false_iff_ne]
    intro h
    rw [h] at hx
    rw [hx] at hkw
    cases hkw
  | vNull => rfl
  | vUndefined => rfl
  | vBool b => rfl
  | vNum q => rfl
  | vArr xs => rfl
  | vObj fs => rfl

theorem objHas_of_mem {k : String} {v : Value} {fs : List (String × Value)}
    (h : (k, v) ∈ fs) : objHas fs k = true := by
  unfold objHas
  rw [List.any_eq_true]
  exact ⟨(k, v), h, by simp⟩

theorem objHas_of_objGet {k : String} {v : Value} {fs : List (String × Value)}
    (h : objGet fs k = some v) : objHas fs k = true := by
  unfold objGet at h
  rcases Option.map_eq_some'.mp h with ⟨kv, hfind, _⟩
  have h1 : kv ∈ fs := List.mem_of_find?_eq_some hfind
  have h2 : (kv.1 == k) = true := by
    have h3 := List.find?_some hfind
    simpa using h3
  unfold objHas
  rw [List.any_eq_true]
  exact ⟨kv, h1, h2⟩

theorem objGet_none_of_ne {k : String} {fs : List (String × Value)}
    (h : ∀ kv ∈ fs, kv.1 ≠ k) : objGet fs k = none := by
  unfold objGet
  rw [List.find?_eq_none.mpr]
  · rfl
  · intro kv hkv
    simp [h kv hkv]

theorem objGet_of_mem_nodup {k : String} {v : Value} {fs : List (String × Value)}
    (hnd : keysNodup fs = true) (h : (k, v) ∈ fs) : objGet fs k = some v := by
  induction fs with
  | nil => cases h
  | cons kv₀ fs ih =>
    obtain ⟨k₀, v₀⟩ := kv₀
    simp only [keysNodup, Bool.and_eq_true, Bool.not_eq_true'] at hnd
    rcases List.mem_cons.mp h with heq | h'
    · cases heq
      simp [objGet]
    · have hk : k₀ ≠ k := by
        intro hk
        subst hk
        rw [objHas_of_mem h'] at hnd
        cases hnd.1
      unfold objGet
      rw [List.find?_cons_of_neg _ (by simp [hk])]
      exact ih hnd.2 h'

/-- Errors are preserved by the ordered element loop whenever the
recursive callback preserves them on every traversed pair. -/
theorem orderedLoop_keep (rec : Value → Value → List String → CState → CState)
    (path : List String) (es ys : List Value)
    (h : ∀ p ∈ es.zip ys, ∀ pth st, (rec p.1 p.2 pth st).errors = st.errors) :
    ∀ i st, (orderedLoop rec path i es ys st).errors = st.errors := by
  induction es generalizing ys with
  | nil => intro i st; cases ys <;> rfl
  | cons e es ih =>
    intro i st
    cases ys with
    | nil => rfl
    | cons y ys =>
      show (orderedLoop rec path (i + 1) es ys _).errors = _
      rw [ih ys (fun p hp => h p (List.mem_cons_of_mem _ hp)) (i + 1)]
      split
      · rw [addDetail_errors]
      · exact h (e, y) (List.mem_cons_self _ _) _ st

/-- Errors are preserved by the expected-key loop whenever every
non-marker key is present in actual and the recursive callback preserves
errors on its value pair. -/
theorem objLoop_keep (rec : Value → Value → List String → CState → CState)
    (afs : List (String × Value)) (path : List String)
    (fs : List (String × Value))
    (h : ∀ kv ∈ fs, kv.1 = exactKeyword ∨
      (objHas afs kv.1 = true ∧
        ∀ pth st, (rec kv.2 ((objGet afs kv.1).getD .vUndefined) pth st).errors = st.errors)) :
    ∀ st, (objLoop rec afs path fs st).errors = st.errors := by
  induction fs with
  | nil => intro st; rfl
  | cons kv₀ fs ih =>
    obtain ⟨k, v⟩ := kv₀
    intro st
    rcases h (k, v) (List.mem_cons_self _ _) with hm | ⟨hhas, hrec⟩
    · have hm' : k = exactKeyword := hm
      unfold objLoop
      rw [if_pos (by simp [hm'])]
      exact ih (fun kv hkv => h kv (List.mem_cons_of_mem _ hkv)) st
    · unfold objLoop
      by_cases hk : k == exactKeyword
      · rw [if_pos hk]
        exact ih (fun kv hkv => h kv (List.mem_cons_of_mem _ hkv)) st
      · rw [if_neg hk, if_pos hhas]
        rw [ih (fun kv hkv => h kv (List.mem_cons_of_mem _ hkv))]
        exact hrec _ st

/-- Membership in the self-zip. -/
theorem mem_zip_self {p : Value × Value} {xs : List Value}
    (h : p ∈ xs.zip xs) : p.1 = p.2 ∧ p.1 ∈ xs := by
  induction xs with
  | nil => cases h
  | cons x xs ih =>
    rcases List.mem_cons.mp h with rfl | h'
    · exact ⟨rfl, List.mem_cons_self _ _⟩
    · exact ⟨(ih h').1, List.mem_cons_of_mem _ (ih h').2⟩

/-- A plain value compared against itself (default options) records no
error, whatever the path, context and starting state. -/
theorem plain_refl : ∀ fuel : Nat, ∀ v : Value, sizeV v ≤ fuel →
    isPlain v = true → ∀ path ctx st,
      (compareInternal defaultRegistry fuel v v path ctx {} st).errors = st.errors := by
  intro fuel
  induction fuel with
  | zero =>
    intro v hv
    exact absurd (le_trans (sizeV_pos v) hv) (by omega)
  | succ fuel ih =>
    intro v hv hp path ctx st
    unfold compareInternal
    dsimp only
    rw [depthGate_none _ rfl, errorsGate_none _ rfl]
    simp only [Bool.false_eq_true, if_false]
    rw [if_neg (by decide : ¬(({} : CompareOptions).ignorePaths.length > 0))]
    dsimp only
    cases v with
    | vNull => simp [jsStrictEq]
    | vUndefined => simp [jsStrictEq]
    | vBool b => simp [comparePrims, jsStrictEq]
    | vNum q => simp [comparePrims, jsStrictEq]
    | vStr s =>
      simp only [isPlain, Bool.not_eq_true'] at hp
      by_cases hkw : (s == ignoreKeyword) = true
      · simp [hkw]
      · simp [hkw, hp, comparePrims, jsStrictEq]
    | vArr xs =>
      dsimp only
      simp only [isPlain] at hp
      have hnk : ∀ x ∈ xs, isKw ignoreOrderKeyword x = false ∧
          isKw ignoreRestKeyword x = false := by
        intro x hx
        exact ⟨isKw_false_of_plain (by decide) (isPlainL_mem hp x hx),
               isKw_false_of_plain (by decide) (isPlainL_mem hp x hx)⟩
      rw [decDepth_errors, compareArrays_dispatch_ordered _ _ path xs xs _ hnk]
      unfold compareArraysOrdered
      rw [if_neg (by simp)]
      rw [orderedLoop_keep]
      · rw [bumpDepth_errors]
      · intro p hp' pth st'
        have hm := mem_zip_self hp'
        rw [← hm.1]
        have hx : sizeV p.1 ≤ fuel := by
          have h1 := sizeVL_of_mem hm.2
          simp only [sizeV] at hv
          omega
        exact ih p.1 hx (isPlainL_mem hp p.1 hm.2) pth ctx st'
    | vObj fs =>
      dsimp only
      simp only [isPlain, Bool.and_eq_true] at hp
      obtain ⟨hnd, hpf⟩ := hp
      rw [decDepth_errors]
      unfold compareObjectsF
      have hex : exactModeOn fs {} = false := by
        unfold exactModeOn
        rw [objGet_none_of_ne (fun kv hkv => (isPlainF_mem hpf kv hkv).1)]
        rfl
      rw [hex]
      dsimp only
      split
      · rename_i hcontra
        simp at hcontra
      rw [objLoop_keep]
      · rw [bumpDepth_errors]
      · intro kv hkv
        right
        refine ⟨objHas_of_mem (k := kv.1) (v := kv.2) (by simpa using hkv), ?_⟩
        intro pth st'
        rw [objGet_of_mem_nodup hnd (by simpa using hkv)]
        have hx : sizeV kv.2 ≤ fuel := by
          have h1 := sizeVF_of_mem (k := kv.1) (v := kv.2) (by simpa using hkv)
          simp only [sizeV] at hv
          omega
        exact ih kv.2 hx (isPlainF_mem hpf kv hkv).2 pth ctx st'

/-- Claim C2: object comparison.  Every expected key other than the
exact marker records exactly one missing-property error (and does not
descend) when absent from actual, and recurses into the value when
present; the extra-property scan appends exactly one error per actual
key absent from expected and runs if and only if exact mode is active or
`ignoreExtraProperties` is false; under default options a key-subset
expected object with equal plain values compares successfully. -/
theorem claim_C2_object_comparison :
    (∀ rec afs path k (v : Value) rest (st : CState),
      (k == exactKeyword) = false → objHas afs k = false →
      objLoop rec afs path ((k, v) :: rest) st =
        objLoop rec afs path rest
          (addError st (path ++ [k]) .MISSING_PROPERTY v .vUndefined
            ("Property '" ++ k ++ "' missing in actual object"))) ∧
    (∀ rec afs path k (v : Value) rest (st : CState),
      (k == exactKeyword) = false → objHas afs k = true →
      objLoop rec afs path ((k, v) :: rest) st =
        objLoop rec afs path rest
          (rec v ((objGet afs k).getD .vUndefined) (path ++ [k]) st)) ∧
    (∀ fs path (afs : List (String × Value)) (st : CState),
      extraScan fs path afs st =
        { st with errors := st.errors ++
            (afs.filter (fun kv => !objHas fs kv.1)).map (extraErrFor path) }) ∧
    (∀ rec fs afs path (opts : CompareOptions) (st : CState),
      ((exactModeOn fs opts || !opts.ignoreExtraProperties) = true →
        compareObjectsF rec fs (.vObj afs) path opts st =
          extraScan fs path afs (objLoop rec afs path fs st)) ∧
      ((exactModeOn fs opts || !opts.ignoreExtraProperties) = false →
        compareObjectsF rec fs (.vObj afs) path opts st =
          objLoop rec afs path fs st)) ∧
    (∀ fs afs (ctx : Context),
      (∀ kv ∈ fs, kv.1 ≠ exactKeyword ∧ isPlain kv.2 = true ∧
        objGet afs kv.1 = some kv.2) →
      (compareData (.vObj fs) (.vObj afs) ctx {}).success = true) := by
  refine ⟨?_, ?_, ?_, ?_, ?_⟩
  · intro rec afs path k v rest st h1 h2
    unfold objLoop
    rw [if_neg (by simp [h1]), if_neg (by simp [h2])]
    cases rest with
    | nil => rfl
    | cons kv r => obtain ⟨k2, v2⟩ := kv; rfl
  · intro rec afs path k v rest st h1 h2
    unfold objLoop
    rw [if_neg (by simp [h1]), if_pos h2]
    cases rest with
    | nil => rfl
    | cons kv r => obtain ⟨k2, v2⟩ := kv; rfl
  · intro fs path afs
    induction afs with
    | nil => intro st; simp [extraScan]
    | cons kv rest ih =>
      intro st
      obtain ⟨k, v⟩ := kv
      show extraScan fs path rest _ = _
      by_cases hk : objHas fs k
      · rw [if_pos hk, ih st]
        simp [extraErrFor, hk]
      · rw [if_neg hk, ih]
        simp only [addError_errors]
        have hk' : objHas fs k = false := by simpa using hk
        simp [extraErrFor, hk', List.filter_cons]
  · intro rec fs afs path opts st
    constructor
    · intro h
      unfold compareObjectsF
      try dsimp only
      rw [if_pos h]
    · intro h
      unfold compareObjectsF
      try dsimp only
      rw [if_neg (by simp [h])]
  · intro fs afs ctx h
    show (engineCompare defaultRegistry (.vObj fs) (.vObj afs) ctx {}).success = true
    apply engine_success_of_nil defaultRegistry (.vObj fs) (.vObj afs) ctx {} nofun
    unfold comparerCompare
    rw [show sizeV (Value.vObj fs) = sizeVF fs + 1 from by simp [sizeV, Nat.add_comm]]
    unfold compareInternal
    dsimp only
    rw [depthGate_none _ rfl, errorsGate_none _ rfl]
    simp only [Bool.false_eq_true, if_false]
    rw [if_neg (by decide : ¬(({} : CompareOptions).ignorePaths.length > 0))]
    dsimp only
    rw [decDepth_errors]
    unfold compareObjectsF
    try dsimp only
    have hex : exactModeOn fs {} = false := by
      unfold exactModeOn
      rw [objGet_none_of_ne (fun kv hkv => (h kv hkv).1)]
      rfl
    rw [hex]
    try dsimp only
    split
    · rename_i hc
      simp at hc
    rw [objLoop_keep]
    · rw [bumpDepth_errors]; rfl
    · intro kv hkv
      right
      refine ⟨objHas_of_objGet (h kv hkv).2.2, ?_⟩
      intro pth st'
      rw [(h kv hkv).2.2]
      have hsz : sizeV kv.2 ≤ sizeVF fs := by
        have h1 := sizeVF_of_mem (k := kv.1) (v := kv.2) (by simpa using hkv)
        omega
      exact plain_refl (sizeVF fs) kv.2 hsz (h kv hkv).2.1 pth ctx st'

/-- Witness for claim C2 at concrete inputs: the key-subset expected
object succeeds against an actual object with one surplus key under
default options. -/
theorem claim_C2_witness :
    (compareData (.vObj [("a", .vNum 1)])
      (.vObj [("a", .vNum 1), ("b", .vNum 2)]) {} {}).success = true :=
  claim_C2_object_comparison.2.2.2.2 [("a", .vNum 1)]
    [("a", .vNum 1), ("b", .vNum 2)] {}
    (by
      intro kv hkv
      rcases List.mem_singleton.mp hkv with rfl
      exact ⟨by decide, by decide, rfl⟩)

/-! ## Claim C1 -/

/-- Characterization of the source's inner scan, shifted to an arbitrary
starting index: a hit is the first unconsumed trial-matching index. -/
theorem findMatchIdx_some_spec (trial : Value → Value → Bool) (e : Value) :
    ∀ (ys : List Value) (j0 : Nat) (matched : List Nat) (j : Nat) (y : Value),
      findMatchIdx trial e ys j0 matched = some (j, y) →
      j0 ≤ j ∧ j - j0 < ys.length ∧ y = ys.getD (j - j0) .vNull ∧
      matched.contains j = false ∧ trial e y = true ∧
      (∀ k, j0 ≤ k → k < j → matched.contains k = false →
        trial e (ys.getD (k - j0) .vNull) = false) := by
  intro ys
  induction ys with
  | nil => intro j0 matched j y h; cases h
  | cons y0 ys ih =>
    intro j0 matched j y h
    unfold findMatchIdx at h
    by_cases hc : matched.contains j0 = true
    · rw [if_pos hc] at h
      obtain ⟨h1, h2, h3, h4, h5, h6⟩ := ih (j0 + 1) matched j y h
      refine ⟨by omega, by simp; omega, ?_, h4, h5, ?_⟩
      · rw [h3]
        have : j - j0 = (j - (j0 + 1)) + 1 := by omega
        rw [this]
        rfl
      · intro k hk1 hk2 hk3
        rcases Nat.eq_or_lt_of_le hk1 with rfl | hlt
        · rw [hk3] at hc; cases hc
        · have := h6 k (by omega) hk2 hk3
          have heq : k - j0 = (k - (j0 + 1)) + 1 := by omega
          rw [heq]
          exact this
    · rw [if_neg hc] at h
      by_cases ht : trial e y0 = true
      · rw [if_pos ht] at h
        injection h with h'
        injection h' with hj hy
        subst hj; subst hy
        refine ⟨le_refl _, by simp, by simp, by simpa using hc, ht, ?_⟩
        intro k hk1 hk2
        omega
      · rw [if_neg ht] at h
        obtain ⟨h1, h2, h3, h4, h5, h6⟩ := ih (j0 + 1) matched j y h
        refine ⟨by omega, by simp; omega, ?_, h4, h5, ?_⟩
        · rw [h3]
          have : j - j0 = (j - (j0 + 1)) + 1 := by omega
          rw [this]
          rfl
        · intro k hk1 hk2 hk3
          rcases Nat.eq_or_lt_of_le hk1 with rfl | hlt
          · simpa using ht
          · have := h6 k (by omega) hk2 hk3
            have heq : k - j0 = (k - (j0 + 1)) + 1 := by omega
            rw [heq]
            exact this

/-- Characterization of a failed inner scan: no unconsumed index
trial-matches. -/
theorem findMatchIdx_none_spec (trial : Value → Value → Bool) (e : Value) :
    ∀ (ys : List Value) (j0 : Nat) (matched : List Nat),
      findMatchIdx trial e ys j0 matched = none →
      ∀ k, j0 ≤ k → k - j0 < ys.length → matched.contains k = false →
        trial e (ys.getD (k - j0) .vNull) = false := by
  intro ys
  induction ys with
  | nil => intro j0 matched _ k _ hk; simp at hk
  | cons y0 ys ih =>
    intro j0 matched h k hk1 hk2 hk3
    unfold findMatchIdx at h
    by_cases hc : matched.contains j0 = true
    · rw [if_pos hc] at h
      rcases Nat.eq_or_lt_of_le hk1 with rfl | hlt
      · rw [hk3] at hc; cases hc
      · have := ih (j0 + 1) matched h k (by omega) (by simp at hk2; omega) hk3
        have heq : k - j0 = (k - (j0 + 1)) + 1 := by omega
        rw [heq]
        exact this
    · rw [if_neg hc] at h
      by_cases ht : trial e y0 = true
      · rw [if_pos ht] at h; cases h
      · rw [if_neg ht] at h
        rcases Nat.eq_or_lt_of_le hk1 with rfl | hlt
        · simpa using ht
        · have := ih (j0 + 1) matched h k (by omega) (by simp at hk2; omega) hk3
          have heq : k - j0 = (k - (j0 + 1)) + 1 := by omega
          rw [heq]
          exact this

/-- A helper: `find?` respects pointwise-equal predicates. -/
theorem find?_congr_list {α : Type} (l : List α) (p q : α → Bool)
    (h : ∀ a ∈ l, p a = q a) : l.find? p = l.find? q := by
  induction l with
  | nil => rfl
  | cons a l ih =>
    rw [List.find?_cons, List.find?_cons, h a (List.mem_cons_self _ _)]
    split
    · rfl
    · exact ih (fun b hb => h b (List.mem_cons_of_mem _ hb))

/-- The source's inner scan started at 0 computes exactly the claim's
first unconsumed trial-matching index, paired with that actual value. -/
theorem findMatchIdx_eq_specFirstIdx (trial : Value → Value → Bool) (e : Value) :
    ∀ (ys : List Value) (matched : List Nat),
      findMatchIdx trial e ys 0 matched =
        (specFirstIdx trial e ys matched).map (fun j => (j, ys.getD j .vNull)) := by
  have main : ∀ (ys : List Value) (j0 : Nat) (matched : List Nat),
      findMatchIdx trial e ys j0 matched =
        ((List.range' j0 ys.length).find?
          (fun j => !matched.contains j && trial e (ys.getD (j - j0) .vNull))).map
          (fun j => (j, ys.getD (j - j0) .vNull)) := by
    intro ys
    induction ys with
    | nil => intro j0 matched; rfl
    | cons y0 ys ih =>
      intro j0 matched
      simp only [List.length_cons]
      rw [List.range'_succ, List.find?_cons]
      by_cases hc : matched.contains j0 = true
      · have hp : (!matched.contains j0 && trial e ((y0 :: ys).getD (j0 - j0) .vNull)) = false := by
          rw [hc]; rfl
        rw [hp]
        unfold findMatchIdx
        rw [if_pos hc, ih (j0 + 1) matched]
        have hcg : ((List.range' (j0 + 1) ys.length).find?
              (fun j => !matched.contains j && trial e (ys.getD (j - (j0 + 1)) .vNull))) =
            ((List.range' (j0 + 1) ys.length).find?
              (fun j => !matched.contains j && trial e ((y0 :: ys).getD (j - j0) .vNull))) := by
          apply find?_congr_list
          intro a ha
          have h1 : j0 + 1 ≤ a := (List.mem_range'_1.mp ha).1
          have heq : a - j0 = (a - (j0 + 1)) + 1 := by omega
          rw [heq]
          rfl
        rw [hcg]
        cases hfind : ((List.range' (j0 + 1) ys.length).find?
            (fun j => !matched.contains j && trial e ((y0 :: ys).getD (j - j0) .vNull))) with
        | none => rfl
        | some j =>
          simp only [Option.map_some']
          have hmem := List.mem_of_find?_eq_some hfind
          have h1 : j0 + 1 ≤ j := (List.mem_range'_1.mp hmem).1
          have heq : j - j0 = (j - (j0 + 1)) + 1 := by omega
          rw [heq]
          rfl
      · have hc' : matched.contains j0 = false := by simpa using hc
        by_cases ht : trial e y0 = true
        · have hp : (!matched.contains j0 && trial e ((y0 :: ys).getD (j0 - j0) .vNull)) = true := by
            rw [hc']
            have : j0 - j0 = 0 := by omega
            rw [this]
            simpa using ht
          rw [hp]
          unfold findMatchIdx
          rw [if_neg (by rw [hc']; exact Bool.false_ne_true), if_pos ht]
          have : j0 - j0 = 0 := by omega
          simp [this]
        · have hp : (!matched.contains j0 && trial e ((y0 :: ys).getD (j0 - j0) .vNull)) = false := by
            have : j0 - j0 = 0 := by omega
            rw [this]
            simp [ht]
          rw [hp]
          unfold findMatchIdx
          rw [if_neg (by rw [hc']; exact Bool.false_ne_true), if_neg ht, ih (j0 + 1) matched]
          have hcg : ((List.range' (j0 + 1) ys.length).find?
                (fun j => !matched.contains j && trial e (ys.getD (j - (j0 + 1)) .vNull))) =
              ((List.range' (j0 + 1) ys.length).find?
                (fun j => !matched.contains j && trial e ((y0 :: ys).getD (j - j0) .vNull))) := by
            apply find?_congr_list
            intro a ha
            have h1 : j0 + 1 ≤ a := (List.mem_range'_1.mp ha).1
            have heq : a - j0 = (a - (j0 + 1)) + 1 := by omega
            rw [heq]
            rfl
          rw [hcg]
          cases hfind : ((List.range' (j0 + 1) ys.length).find?
              (fun j => !matched.contains j && trial e ((y0 :: ys).getD (j - j0) .vNull))) with
          | none => rfl
          | some j =>
            simp only [Option.map_some']
            have hmem := List.mem_of_find?_eq_some hfind
            have h1 : j0 + 1 ≤ j := (List.mem_range'_1.mp hmem).1
            have heq : j - j0 = (j - (j0 + 1)) + 1 := by omega
            rw [heq]
            rfl
  intro ys matched
  rw [main ys 0 matched]
  unfold specFirstIdx
  rw [List.range_eq_range']
  have hcg : ((List.range' 0 ys.length).find?
        (fun j => !matched.contains j && trial e (ys.getD (j - 0) .vNull))) =
      ((List.range' 0 ys.length).find?
        (fun j => !matched.contains j && trial e (ys.getD j .vNull))) := by
    apply find?_congr_list
    intro a ha
    rfl
  rw [hcg]
  cases ((List.range' 0 ys.length).find? (fun j => !matched.contains j && trial e (ys.getD j .vNull))) with
  | none => rfl
  | some j => simp

/-- The source's unordered loop equals the claim's greedy spec loop. -/
theorem unorderedLoop_eq_spec (trial : Value → Value → Bool) (path : List String)
    (ys : List Value) :
    ∀ (es : List Value) (i : Nat) (consumed : List Nat) (st : CState),
      unorderedLoop trial path ys i es consumed st =
        unorderedSpecLoop trial path ys i es consumed st := by
  intro es
  induction es with
  | nil => intro i consumed st; rfl
  | cons e es ih =>
    intro i consumed st
    unfold unorderedLoop unorderedSpecLoop
    rw [findMatchIdx_eq_specFirstIdx]
    cases specFirstIdx trial e ys consumed with
    | none => exact ih _ _ _
    | some j =>
      simp only [Option.map_some']
      exact ih _ _ _

/-- Single assignment: the greedy loop never consumes an actual index
twice, and every consumed index is a real index of the actual array. -/
theorem specConsumed_nodup (trial : Value → Value → Bool) (ys : List Value) :
    ∀ (es : List Value) (consumed : List Nat), consumed.Nodup →
      (∀ j ∈ consumed, j < ys.length) →
      (specConsumed trial ys es consumed).Nodup ∧
      (∀ j ∈ specConsumed trial ys es consumed, j < ys.length) := by
  intro es
  induction es with
  | nil => intro consumed h1 h2; exact ⟨h1, h2⟩
  | cons e es ih =>
    intro consumed h1 h2
    unfold specConsumed
    cases hf : specFirstIdx trial e ys consumed with
    | none => exact ih consumed h1 h2
    | some j =>
      have hnotin : j ∉ consumed := by
        have hp := List.find?_some hf
        simp only [Bool.and_eq_true, Bool.not_eq_true'] at hp
        intro hmem
        have hc : consumed.contains j = true := List.elem_eq_true_of_mem hmem
        rw [hc] at hp
        cases hp.1
      have hlt : j < ys.length := by
        have hmem := List.mem_of_find?_eq_some hf
        exact List.mem_range.mp hmem
      apply ih
      · rw [List.nodup_append]
        refine ⟨h1, List.nodup_singleton j, ?_⟩
        intro a ha hb
        rw [List.mem_singleton.mp hb] at ha
        exact hnotin ha
      · intro k hk
        rcases List.mem_append.mp hk with hk' | hk'
        · exact h2 k hk'
        · rw [List.mem_singleton.mp hk']
          exact hlt

/-- Claim C1: the unordered (`ignoreOrder`) array strategy.  A length
difference records an array-length-mismatch error and aborts the whole
array check; with equal lengths the loop equals the claim's greedy spec:
for each expected element in order, the inner scan returns exactly the
first not-yet-consumed actual index whose isolated trial comparison
succeeds (pass recorded), otherwise an array-element-mismatch error is
recorded at that expected index; no actual index is ever consumed twice;
and the trial used by the comparer is `testMatch` — a fresh comparer run
on empty state with the same registry, context and options, whose logs
are discarded and only queried for emptiness. -/
theorem claim_C1_unordered_arrays :
    (∀ trial path (es ys : List Value) (st : CState), es.length ≠ ys.length →
      compareArraysUnordered trial path es ys st =
        addError st path .ARRAY_LENGTH_MISMATCH (.vNum es.length) (.vNum ys.length)
          ("Array length mismatch: expected " ++ toString es.length ++
           ", got " ++ toString ys.length)) ∧
    (∀ trial path (es ys : List Value) (st : CState), es.length = ys.length →
      compareArraysUnordered trial path es ys st =
        unorderedSpecLoop trial path ys 0 es [] st) ∧
    (∀ trial (e : Value) (ys : List Value) (matched : List Nat) j y,
      findMatchIdx trial e ys 0 matched = some (j, y) →
      j < ys.length ∧ y = ys.getD j .vNull ∧ matched.contains j = false ∧
      trial e y = true ∧
      (∀ k, k < j → matched.contains k = false →
        trial e (ys.getD k .vNull) = false)) ∧
    (∀ trial (e : Value) (ys : List Value) (matched : List Nat),
      findMatchIdx trial e ys 0 matched = none →
      ∀ k, k < ys.length → matched.contains k = false →
        trial e (ys.getD k .vNull) = false) ∧
    (∀ trial (ys es : List Value), (specConsumed trial ys es []).Nodup ∧
      ∀ j ∈ specConsumed trial ys es [], j < ys.length) ∧
    (∀ fuel (xs ys : List Value) path ctx (st : CState),
      xs.any (isKw ignoreOrderKeyword) = true →
      compareInternal defaultRegistry (fuel + 1) (.vArr xs) (.vArr ys) path ctx {} st =
        decDepth (compareArraysUnordered
          (fun e a => testMatch defaultRegistry fuel e a ctx {}) path
          (xs.filter (fun item =>
            !isKw ignoreOrderKeyword item && !isKw ignoreRestKeyword item))
          ys (bumpDepth st))) := by
  refine ⟨?_, ?_, ?_, ?_, ?_, ?_⟩
  · intro trial path es ys st h
    unfold compareArraysUnordered
    rw [if_pos h]
  · intro trial path es ys st h
    unfold compareArraysUnordered
    rw [if_neg (by simp [h]), unorderedLoop_eq_spec]
  · intro trial e ys matched j y h
    obtain ⟨h1, h2, h3, h4, h5, h6⟩ := findMatchIdx_some_spec trial e ys 0 matched j y h
    rw [Nat.sub_zero] at h2 h3
    refine ⟨h2, h3, h4, h5, ?_⟩
    intro k hk1 hk2
    have := h6 k (Nat.zero_le k) hk1 hk2
    rwa [Nat.sub_zero] at this
  · intro trial e ys matched h k hk1 hk2
    have := findMatchIdx_none_spec trial e ys 0 matched h k (Nat.zero_le k)
      (by rwa [Nat.sub_zero]) hk2
    rwa [Nat.sub_zero] at this
  · intro trial ys es
    exact specConsumed_nodup trial ys es [] List.nodup_nil (by intro j hj; cases hj)
  · intro fuel xs ys path ctx st h
    unfold compareInternal
    dsimp only
    rw [depthGate_none _ rfl, errorsGate_none _ rfl]
    simp only [Bool.false_eq_true, if_false]
    rw [if_neg (by decide : ¬(({} : CompareOptions).ignorePaths.length > 0))]
    dsimp only
    unfold compareArrays
    try dsimp only
    rw [if_pos h]
    unfold testMatch
    rfl

/-- Witness for claim C1 at concrete inputs: `[apple, banana]` with
`ignoreOrder` against `[banana, apple]` runs the greedy spec loop
(lengths equal after stripping the keyword), and the mismatched-length
case records the single abort error. -/
theorem claim_C1_witness :
    compareArraysUnordered (fun e a => jsStrictEq e a) []
      [.vStr "apple", .vStr "banana"] [.vStr "banana", .vStr "apple"] emptyCState =
      unorderedSpecLoop (fun e a => jsStrictEq e a) [] [.vStr "banana", .vStr "apple"]
        0 [.vStr "apple", .vStr "banana"] [] emptyCState ∧
    compareArraysUnordered (fun e a => jsStrictEq e a) []
      [.vStr "apple"] [] emptyCState =
      addError emptyCState [] .ARRAY_LENGTH_MISMATCH (.vNum 1) (.vNum 0)
        ("Array length mismatch: expected " ++ toString (1 : Nat) ++
         ", got " ++ toString (0 : Nat)) :=
  ⟨claim_C1_unordered_arrays.2.1 (fun e a => jsStrictEq e a) []
      [.vStr "apple", .vStr "banana"] [.vStr "banana", .vStr "apple"] emptyCState rfl,
   claim_C1_unordered_arrays.1 (fun e a => jsStrictEq e a) []
      [.vStr "apple"] [] emptyCState (by decide)⟩

/-! ## Claim C8 -/

theorem startsWithL_self_append (ps cs : List Char) :
    startsWithL (ps ++ cs) ps = true := by
  induction ps with
  | nil => cases cs <;> rfl
  | cons p ps ih => simp [startsWithL, ih]

theorem endsWithL_append_self (cs ps : List Char) :
    endsWithL (cs ++ ps) ps = true := by
  unfold endsWithL
  rw [List.reverse_append]
  exact startsWithL_self_append ps.reverse cs.reverse

/-- `trim` is the identity on a string whose first and last characters
are not whitespace. -/
theorem trimL_no_ws (c1 c2 : Char) (mid : List Char)
    (h1 : jsIsWS c1 = false) (h2 : jsIsWS c2 = false) :
    trimL (c1 :: (mid ++ [c2])) = c1 :: (mid ++ [c2]) := by
  unfold trimL
  rw [List.dropWhile_cons]
  rw [h1]
  simp only [Bool.false_eq_true, if_false]
  have hrev : (c1 :: (mid ++ [c2])).reverse = c2 :: (c1 :: mid).reverse := by
    have : c1 :: (mid ++ [c2]) = (c1 :: mid) ++ [c2] := by simp
    rw [this, List.reverse_append]
    rfl
  rw [hrev, List.dropWhile_cons, h2]
  simp only [Bool.false_eq_true, if_false]
  rw [← hrev, List.reverse_reverse]

/-- `splitOnCharL` never returns an empty clause list. -/
theorem splitOnCharL_ne_nil (sep : Char) : ∀ cs, splitOnCharL sep cs ≠ [] := by
  intro cs
  induction cs with
  | nil => simp [splitOnCharL]
  | cons c cs ih =>
    unfold splitOnCharL
    split
    · exact List.cons_ne_nil _ _
    · split <;> exact List.cons_ne_nil _ _

/-- Splitting on a pipe: the split happens at the first pipe whatever
precedes it. -/
theorem splitOnCharL_pipe (xs ys : List Char) (h : xs.contains '|' = false) :
    splitOnCharL '|' (xs ++ '|' :: ys) = xs :: splitOnCharL '|' ys := by
  induction xs with
  | nil =>
    have hstep : splitOnCharL '|' ('|' :: ys) =
        match splitOnCharL '|' ys with
        | [] => [['|']]
        | r :: rs => if '|' == '|' then [] :: r :: rs else ('|' :: r) :: rs := rfl
    cases hsp : splitOnCharL '|' ys with
    | nil => exact absurd hsp (splitOnCharL_ne_nil '|' ys)
    | cons r rs =>
      rw [List.nil_append, hstep, hsp]
      simp
  | cons x xs ih =>
    have hx : (x == '|') = false := by
      by_cases hx : x = '|'
      · subst hx
        rw [List.contains_cons] at h
        simp at h
      · simpa using hx
    have hxs : xs.contains '|' = false := by
      rw [List.contains_cons] at h
      simp only [Bool.or_eq_false_iff] at h
      exact h.2
    have hstep : splitOnCharL '|' (x :: (xs ++ '|' :: ys)) =
        match splitOnCharL '|' (xs ++ '|' :: ys) with
        | [] => [[x]]
        | r :: rs => if x == '|' then [] :: r :: rs else (x :: r) :: rs := rfl
    show splitOnCharL '|' (x :: (xs ++ '|' :: ys)) = (x :: xs) :: splitOnCharL '|' ys
    rw [hstep, ih hxs]
    simp [hx]

/-- The colon splitter never returns an empty clause list on a nonempty
input. -/
theorem splitColonAux_ne_nil (ec : Bool) :
    ∀ (n : Nat) (cs cur : List Char), cs.length ≤ n →
      (cs ≠ [] ∨ cur ≠ [] ∨ ec = true) → splitColonAux ec cs cur ≠ [] := by
  intro n
  induction n with
  | zero =>
    intro cs cur hlen hne
    have hcs : cs = [] := List.length_eq_zero.mp (Nat.le_zero.mp hlen)
    subst hcs
    unfold splitColonAux
    rcases hne with h | h | h
    · exact absurd rfl h
    · rw [if_pos (by simp [List.length_pos.mpr h])]
      exact List.cons_ne_nil _ _
    · rw [if_pos (by simp [h])]
      exact List.cons_ne_nil _ _
  | succ n ih =>
    intro cs cur hlen hne
    unfold splitColonAux
    split
    · split
      · exact List.cons_ne_nil _ _
      · rename_i hcond
        simp only [Bool.or_eq_true, not_or] at hcond
        rcases hne with h | h | h
        · exact absurd rfl h
        · refine absurd (List.length_eq_zero.mp ?_) h
          have h0 := hcond.1
          simp only [decide_eq_true_eq] at h0
          omega
        · exact absurd (by simpa using h) hcond.2
    · apply ih
      · simp only [List.length_cons] at hlen
        omega
      · right; left
        exact List.append_ne_nil_of_right_ne_nil _ (List.cons_ne_nil _ _)
    · exact List.cons_ne_nil _ _
    · apply ih
      · simp only [List.length_cons] at hlen
        omega
      · right; left
        exact List.append_ne_nil_of_right_ne_nil _ (List.cons_ne_nil _ _)

/-- `trim` is the identity when neither end is whitespace. -/
theorem trimL_eq_self (cs : List Char)
    (h1 : ∀ c, cs.head? = some c → jsIsWS c = false)
    (h2 : ∀ c, cs.getLast? = some c → jsIsWS c = false) :
    trimL cs = cs := by
  cases cs with
  | nil => rfl
  | cons c rest =>
    unfold trimL
    rw [List.dropWhile_cons, h1 c rfl]
    simp only [Bool.false_eq_true, if_false]
    cases hrev : (c :: rest).reverse with
    | nil => exact absurd hrev (by simp)
    | cons d ds =>
      have hd : jsIsWS d = false := by
        apply h2
        rw [← List.head?_reverse, hrev]
        rfl
      rw [List.dropWhile_cons, hd]
      simp only [Bool.false_eq_true, if_false]
      rw [← hrev, List.reverse_reverse]

/-- A wrapped, nonempty, line-terminator-free body is a directive, and
`slice(10, -2)` recovers exactly the body. -/
theorem isDirective_wrapped (mid : List Char) (hne : mid ≠ [])
    (hterm : ∀ c ∈ mid, isLineTerm c = false) :
    isDirectiveL (wrapperOpen ++ mid ++ wrapperClose) = true ∧
    innerOfL (wrapperOpen ++ mid ++ wrapperClose) = mid := by
  have hlen : (wrapperOpen ++ mid ++ wrapperClose).length = mid.length + 12 := by
    simp [wrapperOpen, wrapperClose]
  have hmidpos : 0 < mid.length := List.length_pos.mpr hne
  have hdrop : (wrapperOpen ++ mid ++ wrapperClose).drop 10 = mid ++ wrapperClose := by
    rw [List.append_assoc]
    have h10 : (10 : Nat) = wrapperOpen.length := rfl
    rw [h10, List.drop_left]
  have hinner : innerOfL (wrapperOpen ++ mid ++ wrapperClose) = mid := by
    unfold innerOfL
    rw [hdrop, hlen]
    have h12 : mid.length + 12 - 12 = mid.length := by omega
    rw [h12, List.take_left]
  refine ⟨?_, hinner⟩
  unfold isDirectiveL
  have htrim : trimL (wrapperOpen ++ mid ++ wrapperClose) =
      wrapperOpen ++ mid ++ wrapperClose := by
    apply trimL_eq_self
    · intro c hc
      rw [List.append_assoc] at hc
      have h0 : (wrapperOpen ++ (mid ++ wrapperClose)).head? = some '\x7b' := rfl
      rw [h0] at hc
      injection hc with hc2
      rw [← hc2]
      decide
    · intro c hc
      have hsh : wrapperOpen ++ mid ++ wrapperClose =
          (wrapperOpen ++ mid ++ ['\x7d']) ++ ['\x7d'] := by
        simp [wrapperClose]
      rw [hsh, List.getLast?_concat] at hc
      injection hc with hc2
      rw [← hc2]
      decide
  rw [htrim]
  dsimp only
  have hstart : startsWithL (wrapperOpen ++ mid ++ wrapperClose) wrapperOpen = true := by
    rw [List.append_assoc]
    exact startsWithL_self_append _ _
  have hends : endsWithL (wrapperOpen ++ mid ++ wrapperClose) wrapperClose = true :=
    endsWithL_append_self _ _
  rw [hstart, hends, hdrop, hlen]
  have h12 : mid.length + 12 - 12 = mid.length := by omega
  rw [h12, List.take_left]
  have hall : mid.all (fun c => !isLineTerm c) = true := by
    rw [List.all_eq_true]
    intro c hc
    rw [hterm c hc]
    rfl
  rw [hall]
  simp
  omega

/-- Claim C8 fails on the code: in the directive
`\x7b\x7bcompare:contains:a\|b\x7d\x7d` the backslash-escaped pipe is
split like any pipe — the main clause keeps a trailing backslash and the
text after the pipe becomes a transform clause — whereas the claim
requires the escaped pipe to stay a literal character of a single
clause (no transform clauses). -/
theorem claim_C8_counterexample :
    (parseE "\x7b\x7bcompare:contains:a\\|b\x7d\x7d").toOption.map
      (fun p => (p.args, p.transforms)) =
      some (["a\\"], [{ name := "b", params := [] }]) := by decide

/-- Claim C8 amended: `parse` splits the wrapper-stripped remainder on
every `|`, escaped or not — an unescaped pipe separates clauses, and a
backslash-escaped pipe also separates clauses, the backslash remaining
as the last character of the preceding clause; the first clause becomes
the main clause and the rest become transform clauses. -/
theorem claim_C8_amended :
    (∀ (xs ys : List Char), xs.contains '|' = false →
      splitOnCharL '|' (xs ++ '|' :: ys) = xs :: splitOnCharL '|' ys) ∧
    (∀ (xs ys : List Char), xs.contains '|' = false →
      splitOnCharL '|' (xs ++ '\\' :: '|' :: ys) =
        (xs ++ ['\\']) :: splitOnCharL '|' ys) ∧
    (∀ (a b : List Char), a.contains '|' = false →
      (∀ c ∈ a, isLineTerm c = false) → (∀ c ∈ b, isLineTerm c = false) →
      (parseE (String.mk
          (wrapperOpen ++ (a ++ '\\' :: '|' :: b) ++ wrapperClose))).toOption.map
          (fun p => (p.action :: p.args, p.transforms)) =
        some ((splitByUnescapedColonL (a ++ ['\\'])).map String.mk,
              (splitOnCharL '|' b).map parseTransformL)) := by
  have hnp : ∀ (xs : List Char), xs.contains '|' = false →
      (xs ++ ['\\']).contains '|' = false := by
    intro xs h
    rw [Bool.eq_false_iff]
    intro hc
    rcases List.mem_append.mp (List.mem_of_elem_eq_true hc) with hm | hm
    · have h2 : xs.contains '|' = true := List.elem_eq_true_of_mem hm
      rw [h2] at h
      cases h
    · rw [List.mem_singleton] at hm
      cases hm
  have hsplit2 : ∀ (xs ys : List Char), xs.contains '|' = false →
      splitOnCharL '|' (xs ++ '\\' :: '|' :: ys) =
        (xs ++ ['\\']) :: splitOnCharL '|' ys := by
    intro xs ys h
    have hre : xs ++ '\\' :: '|' :: ys = (xs ++ ['\\']) ++ '|' :: ys := by simp
    rw [hre]
    exact splitOnCharL_pipe (xs ++ ['\\']) ys (hnp xs h)
  refine ⟨splitOnCharL_pipe, hsplit2, ?_⟩
  intro a b hpipe ha hb
  have hterm : ∀ c ∈ a ++ '\\' :: '|' :: b, isLineTerm c = false := by
    intro c hc
    rcases List.mem_append.mp hc with hm | hm
    · exact ha c hm
    · rcases List.mem_cons.mp hm with rfl | hm
      · decide
      · rcases List.mem_cons.mp hm with rfl | hm
        · decide
        · exact hb c hm
  obtain ⟨hdir, hinner⟩ := isDirective_wrapped (a ++ '\\' :: '|' :: b)
    (by simp) hterm
  unfold parseE
  have hdata : (String.mk (wrapperOpen ++ (a ++ '\\' :: '|' :: b) ++ wrapperClose)).data =
      wrapperOpen ++ (a ++ '\\' :: '|' :: b) ++ wrapperClose := rfl
  have hdir' : isDirective (String.mk
      (wrapperOpen ++ (a ++ '\\' :: '|' :: b) ++ wrapperClose)) = true := by
    unfold isDirective
    exact hdir
  rw [hdir']
  simp only [Bool.not_true, Bool.false_eq_true, if_false]
  rw [hinner, hsplit2 a b hpipe]
  cases hms : (splitByUnescapedColonL (a ++ ['\\'])).map String.mk with
  | nil =>
    exact absurd (List.map_eq_nil_iff.mp hms)
      (splitColonAux_ne_nil _ (a ++ ['\\']).length _ [] (le_refl _)
        (Or.inl (List.append_ne_nil_of_right_ne_nil _ (List.cons_ne_nil _ _))))
  | cons action args =>
    dsimp only
    rw [hms]
    rfl

/-- Witness for the amended claim C8 at concrete inputs: in
`\x7b\x7bcompare:contains:a\|b\x7d\x7d` the main clause is
`contains:a\` and `b` becomes one transform clause. -/
theorem claim_C8_witness :
    (parseE (String.mk
        (wrapperOpen ++ ("contains:a".data ++ '\\' :: '|' :: "b".data) ++ wrapperClose))).toOption.map
        (fun p => (p.action :: p.args, p.transforms)) =
      some ((splitByUnescapedColonL ("contains:a".data ++ ['\\'])).map String.mk,
            (splitOnCharL '|' "b".data).map parseTransformL) :=
  claim_C8_amended.2.2 "contains:a".data "b".data (by decide) (by decide) (by decide)

/-! ## Claim C9 -/

/-- The error budget gate fires once the log has reached a non-zero
configured budget. -/
theorem errorsGate_of_ge (opts : CompareOptions) (m n : Nat)
    (hm : opts.maxErrors = some m) (h0 : m ≠ 0) (hn : m ≤ n) :
    errorsGate opts n = true := by
  unfold errorsGate
  rw [hm]
  simp [h0, hn]

/-- Claim C9: the `maxErrors` budget suppresses only further recursive
visits — a recursive entry whose error count already meets the budget
returns with both logs unchanged (stated with no `maxDepth` limit, whose
gate runs first in the source) — while error appends inside the handling
of a single node are not gated: the per-key missing-property scan of
object comparison appends all three errors under `maxErrors = 1`, so the
returned list is strictly longer than the budget. -/
theorem claim_C9_maxErrors_budget :
    (∀ reg fuel e a path ctx opts st m,
      opts.maxErrors = some m → m ≠ 0 → opts.maxDepth = none →
      m ≤ st.errors.length →
      (compareInternal reg fuel e a path ctx opts st).errors = st.errors ∧
      (compareInternal reg fuel e a path ctx opts st).details = st.details) ∧
    ((compareData (.vObj [("a", .vNum 1), ("b", .vNum 2), ("c", .vNum 3)])
        (.vObj []) {} { maxErrors := some 1 }).errors.length = 3 ∧ 1 < 3) := by
  constructor
  · intro reg fuel e a path ctx opts st m hm h0 hd hn
    cases fuel with
    | zero => exact ⟨rfl, rfl⟩
    | succ fuel =>
      unfold compareInternal
      dsimp only
      have hD : depthGate opts (bumpDepth st).currentDepth = false :=
        depthGate_none opts hd _
      have hE : errorsGate opts (bumpDepth st).errors.length = true := by
        rw [bumpDepth_errors]
        exact errorsGate_of_ge opts m st.errors.length hm h0 hn
      rw [hD, hE]
      simp
  · exact ⟨by decide, by decide⟩

/-- Witness for claim C9: a recursive entry with one error already
logged and `maxErrors = 1` leaves the log unchanged. -/
theorem claim_C9_witness :
    (compareInternal defaultRegistry 5 .vNull .vNull [] {} { maxErrors := some 1 }
      { errors := [{ path := "root", type := .VALUE_MISMATCH, expected := .vNull,
                     actual := .vNull, message := "Value mismatch" }] }).errors =
      [{ path := "root", type := .VALUE_MISMATCH, expected := .vNull,
         actual := .vNull, message := "Value mismatch" }] :=
  (claim_C9_maxErrors_budget.1 defaultRegistry 5 .vNull .vNull [] {}
    { maxErrors := some 1 }
    { errors := [{ path := "root", type := .VALUE_MISMATCH, expected := .vNull,
                   actual := .vNull, message := "Value mismatch" }] }
    1 rfl (by decide) rfl (by decide)).1

end DataCompare

/-! ## Checks mirroring the repository's test suite
(`tests/integration`): the embedding reproduces the tested behaviour. -/

section RepoTestSuite
open DataCompare
theorem repoTest_01 : isDirective "\x7b\x7bcompare:regex:user_[0-9]\x7b5\x7d\x7d\x7d" = true := by decide
theorem repoTest_02 : isDirective "\x7b\x7bcompare:\x7d\x7d" = false := by decide
theorem repoTest_03 : isDirective "\x7b\x7bcompare:ignore\x7d\x7d" = true := by decide
theorem repoTest_04 :
    (parseE "\x7b\x7bcompare:regex:user_[0-9]\x7b5\x7d\x7d\x7d").toOption =
      some { original := "\x7b\x7bcompare:regex:user_[0-9]\x7b5\x7d\x7d\x7d",
             action := "regex", args := ["user_[0-9]\x7b5\x7d"], transforms := [] } := by
  decide
theorem repoTest_05 :
    (parseE "\x7b\x7bcompare:contains:a\\|b\x7d\x7d").toOption.map (fun p => p.transforms.length) =
      some 1 := by decide
theorem repoTest_06 : splitByUnescapedColonL "a:b\\:c:d".data = [['a'], ['b', ':', 'c'], ['d']] := by decide

theorem repoTest_07 :
    (compareData (.vObj [("name", .vStr "John"), ("age", .vNum 30)])
      (.vObj [("name", .vStr "John"), ("age", .vNum 30)])).success = true := by decide

theorem repoTest_08 :
    (compareData (.vObj [("name", .vStr "John")])
      (.vObj [("name", .vStr "Jane")])).errors.map (fun e => e.path) = ["name"] := by decide

theorem repoTest_09 :
    (compareData (.vObj [("name", .vStr "John")])
      (.vObj [("name", .vStr "John"), ("age", .vNum 30)])).success = true := by decide

theorem repoTest_10 :
    (compareData (.vArr [.vNum 1, .vNum 2, .vNum 3])
      (.vArr [.vNum 1, .vNum 2])).errors.length = 1 := by decide

theorem repoTest_11 :
    (compareData (.vArr [.vNum 1, .vNum 2, .vStr ignoreRestKeyword])
      (.vArr [.vNum 1, .vNum 2, .vNum 3, .vNum 4, .vNum 5])).success = true := by decide

theorem repoTest_12 :
    (compareData
      (.vArr [.vStr ignoreOrderKeyword, .vStr "apple", .vStr "banana", .vStr "cherry"])
      (.vArr [.vStr "cherry", .vStr "apple", .vStr "banana"])).success = true := by decide

theorem repoTest_13 :
    (compareData (.vObj [("message", .vStr "\x7b\x7bcompare:startsWith:Hello\x7d\x7d")])
      (.vObj [("message", .vStr "Hello World")])).success = true := by decide

theorem repoTest_14 :
    (compareData (.vObj [("email", .vStr "\x7b\x7bcompare:endsWith:@example.com\x7d\x7d")])
      (.vObj [("email", .vStr "john.doe@example.com")])).success = true := by decide

theorem repoTest_15 :
    (compareData (.vObj [("log", .vStr "\x7b\x7bcompare:contains:ERROR\x7d\x7d")])
      (.vObj [("log", .vStr "[2023-12-01] ERROR: Something went wrong")])).success = true := by
  decide

theorem repoTest_16 :
    (compareData (.vObj [("userId", .vStr "\x7b\x7bcompare:regex:user_[0-9]\x7b5\x7d\x7d\x7d")])
      (.vObj [("userId", .vStr "user_12345")])).success = true := by decide

theorem repoTest_17 :
    (compareData (.vObj [("score", .vStr "\x7b\x7bcompare:number:range:0:100\x7d\x7d")])
      (.vObj [("score", .vNum 85)])).success = true := by decide

theorem repoTest_18 :
    (compareData (.vObj [("score", .vStr "\x7b\x7bcompare:number:range:0:100\x7d\x7d")])
      (.vObj [("score", .vNum 150)])).success = false := by decide

theorem repoTest_19 :
    (compareData (.vObj [("value", .vStr "\x7b\x7bcompare:number:tolerance:42:±5\x7d\x7d")])
      (.vObj [("value", .vNum 44)])).success = true := by decide

theorem repoTest_20 :
    (compareData (.vObj [("value", .vStr "\x7b\x7bcompare:number:tolerance:100:±10%\x7d\x7d")])
      (.vObj [("value", .vNum 95)])).success = true := by decide

theorem repoTest_21 :
    (compareData (.vObj [("abfahrt", .vStr "\x7b\x7bcompare:time:exact:630:seconds\x7d\x7d")])
      (.vObj [("abfahrt", .vStr "2025-11-05T15:40:30+01:00")])
      { startTimeTest := some (.vStr "2025-11-05T15:30:00+01:00") }).success = true := by decide

theorem repoTest_22 :
    (compareData (.vStr ignoreKeyword) (.vNum 42)).success = true := by decide

theorem repoTest_23 :
    (compareData (.vObj [("secret", .vStr "a"), ("x", .vNum 1)])
      (.vObj [("secret", .vStr "b"), ("x", .vNum 1)]) {}
      { ignorePaths := [{ path := ["secret"], doc := some ["test"] }] }).success = true := by
  decide

theorem repoTest_24 :
    (compareData (.vObj [("a", .vNum 1), ("b", .vNum 2), ("c", .vNum 3)])
      (.vObj []) {} { maxErrors := some 1 }).errors.length = 3 := by decide

theorem repoTest_25 :
    (compareData (.vStr exactKeyword) (.vNum 1)).errors.map (fun e => e.type) =
      [.DIRECTIVE_ERROR] := by decide

theorem repoTest_26 :
    (compareData (.vObj [("a", .vNum 1)])
      (.vObj [("a", .vNum 1), ("b", .vNum 2)]) {}
      { ignoreExtraProperties := false }).errors.map (fun e => (e.path, e.type)) =
      [("b", .EXTRA_PROPERTY)] := by decide

theorem repoTest_27 :
    (compareData (.vObj [(exactKeyword, .vBool true), ("a", .vNum 1)])
      (.vObj [("a", .vNum 1), ("b", .vNum 2)])).errors.map (fun e => (e.path, e.type)) =
      [("b", .EXTRA_PROPERTY)] := by decide

end RepoTestSuite
